import Mathlib

/-!
# Verification of the drl_air_hockey core pipelines

Shallow embedding, over the rationals, of the numeric core of the
drl_air_hockey repository: the SpaceRAgent observation encoder
(process_raw_obs), the action decoder (process_raw_act) and the reward
shapers (utils/rewards.py).

External numeric primitives that the source consumes as library calls
(numpy sin/cos, forward kinematics, the Moore-Penrose pseudo-inverse and
the SVD of the Jacobian) are consumed here as oracle inputs, and random
draws (np.random.normal unit samples, np.random.rand, np.random.randint)
are oracle-provided sample values; everything the repository itself
computes is translated structurally.
-/

namespace AirHockey

/-- np.clip(x, lo, hi): x clamped into [lo, hi]. -/
def np_clip (x lo hi : ℚ) : ℚ := min (max x lo) hi

/-- np.sign over the rationals: -1, 0 or +1. -/
def np_sign (x : ℚ) : ℚ := if x < 0 then -1 else if x = 0 then 0 else 1

/-- np.copysign(a, b): the magnitude of a with the sign of b (a nonnegative
b gives +|a|). -/
def np_copysign (a b : ℚ) : ℚ := if b < 0 then -|a| else |a|

/-- SpaceRAgent._normalize_value (spacer_agent.py lines 728-732). -/
def _normalize_value (value low_in high_in : ℚ) : ℚ :=
  2 * (value - low_in) / (high_in - low_in) - 1

/-- SpaceRAgent._unnormalize_value (spacer_agent.py lines 734-738). -/
def _unnormalize_value (value low_out high_out : ℚ) : ℚ :=
  (high_out - low_out) * (value + 1) / 2 + low_out

/-- MAX_TIME_UNTIL_PENALTY_S of utils/config.py. -/
def MAX_TIME_UNTIL_PENALTY_S : ℚ := 15

/-! ## Deque primitives

The agent keeps its temporal history in collections.deque objects with a
fixed maxlen: appending to a full deque evicts the oldest element on the
left. -/

variable {α : Type}

/-- One deque.append on a deque with maxlen m. -/
def deque_append (m : ℕ) (xs : List α) (v : α) : List α :=
  ((xs ++ [v]).drop ((xs ++ [v]).length - m))

/-- deque.extend of a batch of elements on a deque with maxlen m. -/
def deque_extend (m : ℕ) (xs vs : List α) : List α :=
  ((xs ++ vs).drop ((xs ++ vs).length - m))

/-- The append-then-fill pattern of schemes 2-4 (spacer_agent.py lines
366-388 and alike): one deque append followed by the while-loop that
replicates the fresh value until the deque holds maxlen elements. -/
def push_fill (m : ℕ) (xs : List α) (v : α) : List α :=
  deque_append m xs v ++ List.replicate (m - (deque_append m xs v).length) v

/-- Flatten a list of 2-d points, oldest to newest, matching
np.array(deque).flatten() on a deque of xy pairs. -/
def flatten_pairs (xs : List (ℚ × ℚ)) : List ℚ :=
  xs.flatMap fun p => [p.1, p.2]

/-! ## Penalty timer state machine -/

/-- One update of the signed side-aware penalty timer of schemes 3-7
(spacer_agent.py lines 439-445, 470-476, 522-528, 575-581): given the
stored side (none when unset) and timer, and the sign source x (the
normalized puck x position), returns the new side and timer. -/
def penalty_step (side : Option ℚ) (timer dt x : ℚ) : ℚ × ℚ :=
  match side with
  | none => (np_sign x, timer)
  | some s => if np_sign x = s then (s, timer + dt) else (-s, 0)

/-- The value the signed penalty timer contributes to the observation
(spacer_agent.py lines 446-448). -/
def penalty_emit (side timer : ℚ) : ℚ :=
  side * timer / MAX_TIME_UNTIL_PENALTY_S

/-- Iterate penalty_step from the reset state (unset side, zero timer) over
a sequence of puck x positions, collecting the (side, timer) pair after
each tick. -/
def penalty_run (dt : ℚ) (xs : List ℚ) : List (ℚ × ℚ) :=
  (xs.foldl
    (fun acc x =>
      let r := penalty_step acc.1.1 acc.1.2 dt x
      ((some r.1, r.2), acc.2 ++ [r]))
    (((none : Option ℚ), (0 : ℚ)), ([] : List (ℚ × ℚ)))).2

/-! ## Schemes and static observation shape -/

/-- The observation schemes the constructor accepts (spacer_agent.py lines
100-191): scheme 1 is rejected, schemes 2-7 are supported. -/
inductive Scheme
  | s2 | s3 | s4 | s5 | s6 | s7
deriving DecidableEq

/-- Scheme validation in SpaceRAgent.__init__: scheme 1 raises, 2-7 are
accepted, any other id raises. -/
def Scheme.of_int : ℤ → Option Scheme
  | 2 => some .s2
  | 3 => some .s3
  | 4 => some .s4
  | 5 => some .s5
  | 6 => some .s6
  | 7 => some .s7
  | _ => none

/-- self.n_stacked_obs_participant_ee_pos per scheme. -/
def n_stacked_obs_participant_ee_pos : Scheme → ℕ
  | .s2 => 1 | .s3 => 3 | .s4 => 2 | .s5 => 4 | .s6 => 4 | .s7 => 2

/-- self.n_stacked_obs_opponent_ee_pos per scheme. -/
def n_stacked_obs_opponent_ee_pos : Scheme → ℕ
  | .s2 => 1 | .s3 => 5 | .s4 => 2 | .s5 => 4 | .s6 => 4 | .s7 => 2

/-- self.n_stacked_obs_puck_pos per scheme. -/
def n_stacked_obs_puck_pos : Scheme → ℕ
  | .s2 => 1 | .s3 => 9 | .s4 => 2 | .s5 => 4 | .s6 => 4 | .s7 => 10

/-- self.n_stacked_obs_puck_rot: the attribute exists only for scheme 7
(spacer_agent.py line 188); 0 stands for the other schemes, which keep no
puck rotation history. -/
def n_stacked_obs_puck_rot : Scheme → ℕ
  | .s7 => 2 | _ => 0

/-- The statically declared observation length, from the
SpaceRAgent.observation_space property (spacer_agent.py lines 225-243). -/
def n_obs_declared (s : Scheme) : ℕ :=
  let n := 1 + 2 * n_stacked_obs_participant_ee_pos s
      + 2 * n_stacked_obs_opponent_ee_pos s
      + 2 * n_stacked_obs_puck_pos s
  let n := if s = .s6 ∨ s = .s7 then n + 7 else n
  if s = .s7 then n + 2 * n_stacked_obs_puck_rot s else n

/-! ## Environment and agent configuration -/

/-- The environment quantities extract_env_info reads and derives
(spacer_agent.py lines 742-812).  The robot base frame enters only through
the absolute x translation robot_base_frame[0][0, 3]. -/
structure EnvInfo where
  table_length : ℚ
  table_width : ℚ
  goal_width : ℚ
  puck_radius : ℚ
  mallet_radius : ℚ
  robot_ee_desired_height : ℚ
  robot_base_frame_x : ℚ
  robot_joint_pos_limit_low : List ℚ
  robot_joint_pos_limit_high : List ℚ
  sim_dt : ℚ

/-- The constructor-time configuration of SpaceRAgent (spacer_agent.py
lines 36-93).  evaluate is the negation of the train flag. -/
structure AgentCfg where
  evaluate : Bool
  vel_constraints_scaling_factor : ℚ
  filter_actions_enabled : Bool
  filter_actions_coefficient : ℚ
  operating_area_offset_from_centre : ℚ
  operating_area_offset_from_table : ℚ
  operating_area_offset_from_goal : ℚ
  z_position_control_tolerance : ℚ
  noise_obs_opponent_ee_pos_std : ℚ
  noise_obs_ee_pos_std : ℚ
  noise_obs_puck_pos_std : ℚ
  noise_act_std : ℚ
  loss_of_tracking_prob_inc_per_step : ℚ
  loss_of_tracking_min_steps : ℕ
  loss_of_tracking_max_steps : ℕ

/-- The random draws one tick can consume, provided as oracle sample
values: unit-normal samples for each noise site (the source scales samples
by the configured std), the np.random.rand() uniform draw and the
np.random.randint offset of the tracking-loss sampler. -/
structure NoiseDraws where
  ee_noise : ℚ × ℚ × ℚ
  opponent_noise : ℚ × ℚ
  puck_noise : ℚ × ℚ × ℚ
  uniform_draw : ℚ
  int_draw : ℕ
  act_noise : ℚ × ℚ

/-- The quantities process_raw_obs extracts from the raw observation vector
(spacer_agent.py lines 840-856): joint positions, the end-effector position
computed by the external forward kinematics, the opponent end-effector xy
and the puck pose (x, y, yaw). -/
structure RawObs where
  joint_pos : List ℚ
  ee_pos : ℚ × ℚ × ℚ
  opponent_ee_pos : ℚ × ℚ
  puck_pos : ℚ × ℚ × ℚ

/-- The per-episode mutable state of the observation encoder, as reset()
leaves it or process_raw_obs updates it (spacer_agent.py lines 271-291). -/
structure ObsState where
  penalty_side : Option ℚ
  penalty_timer : ℚ
  stacked_obs_participant_ee_pos : List (ℚ × ℚ)
  stacked_obs_opponent_ee_pos : List (ℚ × ℚ)
  stacked_obs_puck_pos : List (ℚ × ℚ)
  stacked_obs_puck_rot : List (ℚ × ℚ)
  _new_episode : Bool
  lose_tracking_probability : ℚ
  lose_tracking_n_steps_remaining : ℕ

/-- The state reset() (spacer_agent.py lines 271-291) leaves behind at an
episode boundary. -/
def reset_obs_state : ObsState :=
  { penalty_side := none
    penalty_timer := 0
    stacked_obs_participant_ee_pos := []
    stacked_obs_opponent_ee_pos := []
    stacked_obs_puck_pos := []
    stacked_obs_puck_rot := []
    _new_episode := true
    lose_tracking_probability := 0
    lose_tracking_n_steps_remaining := 0 }

/-! ## Observation encoder (SpaceRAgent.process_raw_obs) -/

/-- Normalize a scalar into [-1, 1] against a physical range and clip: the
np.clip(self._normalize_value(...), -1.0, 1.0) pattern. -/
def norm_clip (v low high : ℚ) : ℚ := np_clip (_normalize_value v low high) (-1) 1

/-- norm_clip on an xy pair against an ((x_min, x_max), (y_min, y_max))
range table. -/
def norm_clip_pair (p : ℚ × ℚ) (mm : (ℚ × ℚ) × (ℚ × ℚ)) : ℚ × ℚ :=
  (norm_clip p.1 mm.1.1 mm.1.2, norm_clip p.2 mm.2.1 mm.2.2)

/-- norm_clip elementwise against per-joint limits. -/
def norm_clip_list (vs lows highs : List ℚ) : List ℚ :=
  (vs.zip (lows.zip highs)).map fun v => norm_clip v.1 v.2.1 v.2.2

/-- self.puck_table_minmax derived in extract_env_info (spacer_agent.py
lines 797-812): ((x min, x max), (y min, y max)). -/
def puck_table_minmax (env : EnvInfo) : (ℚ × ℚ) × (ℚ × ℚ) :=
  ((|env.robot_base_frame_x| - env.table_length / 2 + env.puck_radius,
    |env.robot_base_frame_x| + env.table_length / 2 - env.puck_radius),
   (-(env.table_width / 2) + env.puck_radius,
    env.table_width / 2 - env.puck_radius))

/-- self.ee_table_minmax derived in extract_env_info (spacer_agent.py lines
776-796). -/
def ee_table_minmax (env : EnvInfo) (cfg : AgentCfg) : (ℚ × ℚ) × (ℚ × ℚ) :=
  ((|env.robot_base_frame_x| - env.table_length / 2 + env.mallet_radius
      + cfg.operating_area_offset_from_table + cfg.operating_area_offset_from_goal,
    |env.robot_base_frame_x| - cfg.operating_area_offset_from_centre),
   (-(env.table_width / 2) + env.mallet_radius + cfg.operating_area_offset_from_table,
    env.table_width / 2 - env.mallet_radius - cfg.operating_area_offset_from_table))

/-- self.current_joint_pos normalized and clipped against the joint
position limits (spacer_agent.py lines 296-305). -/
def current_joint_pos_normalized (env : EnvInfo) (raw : RawObs) : List ℚ :=
  norm_clip_list raw.joint_pos env.robot_joint_pos_limit_low env.robot_joint_pos_limit_high

/-- self.current_ee_pos: the forward-kinematics end-effector position, with
Gaussian observation noise added in training mode only (spacer_agent.py
lines 307-314). -/
def current_ee_pos_used (cfg : AgentCfg) (raw : RawObs) (rng : NoiseDraws) : ℚ × ℚ × ℚ :=
  if cfg.evaluate then raw.ee_pos
  else (raw.ee_pos.1 + cfg.noise_obs_ee_pos_std * rng.ee_noise.1,
        raw.ee_pos.2.1 + cfg.noise_obs_ee_pos_std * rng.ee_noise.2.1,
        raw.ee_pos.2.2 + cfg.noise_obs_ee_pos_std * rng.ee_noise.2.2)

/-- ee_pos_xy_norm (spacer_agent.py lines 315-324). -/
def current_ee_xy_norm (env : EnvInfo) (cfg : AgentCfg) (raw : RawObs)
    (rng : NoiseDraws) : ℚ × ℚ :=
  norm_clip_pair ((current_ee_pos_used cfg raw rng).1, (current_ee_pos_used cfg raw rng).2.1)
    (puck_table_minmax env)

/-- opponent_ee_pos_xy_norm (spacer_agent.py lines 327-342). -/
def opponent_ee_xy_norm (env : EnvInfo) (cfg : AgentCfg) (raw : RawObs)
    (rng : NoiseDraws) : ℚ × ℚ :=
  norm_clip_pair
    (if cfg.evaluate then raw.opponent_ee_pos
     else (raw.opponent_ee_pos.1 + cfg.noise_obs_opponent_ee_pos_std * rng.opponent_noise.1,
           raw.opponent_ee_pos.2 + cfg.noise_obs_opponent_ee_pos_std * rng.opponent_noise.2))
    (puck_table_minmax env)

/-- puck_pos after the training-mode noise (spacer_agent.py lines 345-351);
the noise is added to all three components, the yaw included. -/
def puck_pos_used (cfg : AgentCfg) (raw : RawObs) (rng : NoiseDraws) : ℚ × ℚ × ℚ :=
  if cfg.evaluate then raw.puck_pos
  else (raw.puck_pos.1 + cfg.noise_obs_puck_pos_std * rng.puck_noise.1,
        raw.puck_pos.2.1 + cfg.noise_obs_puck_pos_std * rng.puck_noise.2.1,
        raw.puck_pos.2.2 + cfg.noise_obs_puck_pos_std * rng.puck_noise.2.2)

/-- puck_pos_xy_norm (spacer_agent.py lines 352-360). -/
def fresh_puck_xy_norm (env : EnvInfo) (cfg : AgentCfg) (raw : RawObs)
    (rng : NoiseDraws) : ℚ × ℚ :=
  norm_clip_pair ((puck_pos_used cfg raw rng).1, (puck_pos_used cfg raw rng).2.1)
    (puck_table_minmax env)

/-- puck_rot_yaw_norm = (sin yaw, cos yaw) (spacer_agent.py line 363); the
trigonometric primitives are oracle parameters. -/
def puck_rot_yaw_norm (cfg : AgentCfg) (sinFn cosFn : ℚ → ℚ) (raw : RawObs)
    (rng : NoiseDraws) : ℚ × ℚ :=
  (sinFn (puck_pos_used cfg raw rng).2.2, cosFn (puck_pos_used cfg raw rng).2.2)

/-- The scheme-7 puck history update (spacer_agent.py lines 605-627) on a
non-first tick: evaluation appends the fresh reading; training either
repeats the newest stored reading while a tracking-loss interval is active,
or appends the fresh reading and advances the tracking-loss sampler.
Returns the new puck position stack, puck rotation stack, tracking-loss
probability and blind steps remaining. -/
def s7_puck_update (cfg : AgentCfg) (st : ObsState) (rng : NoiseDraws)
    (puckXy puckRot : ℚ × ℚ) : List (ℚ × ℚ) × List (ℚ × ℚ) × ℚ × ℕ :=
  if cfg.evaluate then
    (deque_append (n_stacked_obs_puck_pos .s7) st.stacked_obs_puck_pos puckXy,
     deque_append (n_stacked_obs_puck_rot .s7) st.stacked_obs_puck_rot puckRot,
     st.lose_tracking_probability, st.lose_tracking_n_steps_remaining)
  else if 0 < st.lose_tracking_n_steps_remaining then
    (deque_append (n_stacked_obs_puck_pos .s7) st.stacked_obs_puck_pos
       (st.stacked_obs_puck_pos.getLastD (0, 0)),
     deque_append (n_stacked_obs_puck_rot .s7) st.stacked_obs_puck_rot
       (st.stacked_obs_puck_rot.getLastD (0, 0)),
     st.lose_tracking_probability, st.lose_tracking_n_steps_remaining - 1)
  else if rng.uniform_draw < st.lose_tracking_probability then
    (deque_append (n_stacked_obs_puck_pos .s7) st.stacked_obs_puck_pos puckXy,
     deque_append (n_stacked_obs_puck_rot .s7) st.stacked_obs_puck_rot puckRot,
     0,
     cfg.loss_of_tracking_min_steps
       + rng.int_draw % (cfg.loss_of_tracking_max_steps - cfg.loss_of_tracking_min_steps))
  else
    (deque_append (n_stacked_obs_puck_pos .s7) st.stacked_obs_puck_pos puckXy,
     deque_append (n_stacked_obs_puck_rot .s7) st.stacked_obs_puck_rot puckRot,
     st.lose_tracking_probability + cfg.loss_of_tracking_prob_inc_per_step,
     st.lose_tracking_n_steps_remaining)

/-- What one call of process_raw_obs produces: the observation vector, the
updated encoder state, and the values the call caches on the instance for
the following process_raw_act call. -/
structure ObsResult where
  obs : List ℚ
  st : ObsState
  current_joint_pos : List ℚ
  current_ee_pos : ℚ × ℚ × ℚ
  current_ee_pos_xy_norm : ℚ × ℚ

/-- SpaceRAgent.process_raw_obs (spacer_agent.py lines 293-646), translated
scheme branch by scheme branch. -/
def process_raw_obs (scheme : Scheme) (env : EnvInfo) (cfg : AgentCfg)
    (sinFn cosFn : ℚ → ℚ) (st : ObsState) (raw : RawObs) (rng : NoiseDraws) :
    ObsResult :=
  let jointNorm := current_joint_pos_normalized env raw
  let eePos := current_ee_pos_used cfg raw rng
  let eeXy := current_ee_xy_norm env cfg raw rng
  let oppXy := opponent_ee_xy_norm env cfg raw rng
  let puckXy := fresh_puck_xy_norm env cfg raw rng
  let puckRot := puck_rot_yaw_norm cfg sinFn cosFn raw rng
  match scheme with
  | .s2 =>
    let stackPuck := push_fill (n_stacked_obs_puck_pos .s2) st.stacked_obs_puck_pos puckXy
    let stackEe := push_fill (n_stacked_obs_participant_ee_pos .s2)
      st.stacked_obs_participant_ee_pos eeXy
    let stackOpp := push_fill (n_stacked_obs_opponent_ee_pos .s2)
      st.stacked_obs_opponent_ee_pos oppXy
    let cur := if puckXy.1 < 0 then st.penalty_timer / MAX_TIME_UNTIL_PENALTY_S else -1
    let timer1 := if puckXy.1 < 0 then st.penalty_timer + env.sim_dt else 0
    { obs := (cur :: (flatten_pairs stackPuck ++ flatten_pairs stackEe
        ++ flatten_pairs stackOpp)).map fun v => np_clip v (-1) 1
      st := { st with stacked_obs_puck_pos := stackPuck
                      stacked_obs_participant_ee_pos := stackEe
                      stacked_obs_opponent_ee_pos := stackOpp
                      penalty_timer := timer1 }
      current_joint_pos := raw.joint_pos
      current_ee_pos := eePos
      current_ee_pos_xy_norm := eeXy }
  | .s3 | .s4 =>
    let stackPuck := push_fill (n_stacked_obs_puck_pos scheme) st.stacked_obs_puck_pos puckXy
    let stackEe := push_fill (n_stacked_obs_participant_ee_pos scheme)
      st.stacked_obs_participant_ee_pos eeXy
    let stackOpp := push_fill (n_stacked_obs_opponent_ee_pos scheme)
      st.stacked_obs_opponent_ee_pos oppXy
    let p := penalty_step st.penalty_side st.penalty_timer env.sim_dt puckXy.1
    { obs := (penalty_emit p.1 p.2 :: (flatten_pairs stackPuck ++ flatten_pairs stackEe
        ++ flatten_pairs stackOpp)).map fun v => np_clip v (-1) 1
      st := { st with stacked_obs_puck_pos := stackPuck
                      stacked_obs_participant_ee_pos := stackEe
                      stacked_obs_opponent_ee_pos := stackOpp
                      penalty_side := some p.1
                      penalty_timer := p.2 }
      current_joint_pos := raw.joint_pos
      current_ee_pos := eePos
      current_ee_pos_xy_norm := eeXy }
  | .s5 =>
    let p := penalty_step st.penalty_side st.penalty_timer env.sim_dt puckXy.1
    let cur := np_clip (penalty_emit p.1 p.2) (-1) 1
    let stackPuck := if st._new_episode then
        deque_extend (n_stacked_obs_puck_pos .s5) st.stacked_obs_puck_pos
          (List.replicate (n_stacked_obs_puck_pos .s5) puckXy)
      else deque_append (n_stacked_obs_puck_pos .s5) st.stacked_obs_puck_pos puckXy
    let stackEe := if st._new_episode then
        deque_extend (n_stacked_obs_participant_ee_pos .s5) st.stacked_obs_participant_ee_pos
          (List.replicate (n_stacked_obs_participant_ee_pos .s5) eeXy)
      else deque_append (n_stacked_obs_participant_ee_pos .s5)
        st.stacked_obs_participant_ee_pos eeXy
    let stackOpp := if st._new_episode then
        deque_extend (n_stacked_obs_opponent_ee_pos .s5) st.stacked_obs_opponent_ee_pos
          (List.replicate (n_stacked_obs_opponent_ee_pos .s5) oppXy)
      else deque_append (n_stacked_obs_opponent_ee_pos .s5)
        st.stacked_obs_opponent_ee_pos oppXy
    { obs := cur :: (flatten_pairs stackPuck ++ flatten_pairs stackEe
        ++ flatten_pairs stackOpp)
      st := { st with stacked_obs_puck_pos := stackPuck
                      stacked_obs_participant_ee_pos := stackEe
                      stacked_obs_opponent_ee_pos := stackOpp
                      penalty_side := some p.1
                      penalty_timer := p.2
                      _new_episode := false }
      current_joint_pos := raw.joint_pos
      current_ee_pos := eePos
      current_ee_pos_xy_norm := eeXy }
  | .s6 =>
    let p := penalty_step st.penalty_side st.penalty_timer env.sim_dt puckXy.1
    let cur := np_clip (penalty_emit p.1 p.2) (-1) 1
    let stackPuck := if st._new_episode then
        deque_extend (n_stacked_obs_puck_pos .s6) st.stacked_obs_puck_pos
          (List.replicate (n_stacked_obs_puck_pos .s6) puckXy)
      else deque_append (n_stacked_obs_puck_pos .s6) st.stacked_obs_puck_pos puckXy
    let stackEe := if st._new_episode then
        deque_extend (n_stacked_obs_participant_ee_pos .s6) st.stacked_obs_participant_ee_pos
          (List.replicate (n_stacked_obs_participant_ee_pos .s6) eeXy)
      else deque_append (n_stacked_obs_participant_ee_pos .s6)
        st.stacked_obs_participant_ee_pos eeXy
    let stackOpp := if st._new_episode then
        deque_extend (n_stacked_obs_opponent_ee_pos .s6) st.stacked_obs_opponent_ee_pos
          (List.replicate (n_stacked_obs_opponent_ee_pos .s6) oppXy)
      else deque_append (n_stacked_obs_opponent_ee_pos .s6)
        st.stacked_obs_opponent_ee_pos oppXy
    { obs := cur :: (jointNorm ++ (flatten_pairs stackPuck ++ flatten_pairs stackEe
        ++ flatten_pairs stackOpp))
      st := { st with stacked_obs_puck_pos := stackPuck
                      stacked_obs_participant_ee_pos := stackEe
                      stacked_obs_opponent_ee_pos := stackOpp
                      penalty_side := some p.1
                      penalty_timer := p.2
                      _new_episode := false }
      current_joint_pos := raw.joint_pos
      current_ee_pos := eePos
      current_ee_pos_xy_norm := eeXy }
  | .s7 =>
    let p := penalty_step st.penalty_side st.penalty_timer env.sim_dt puckXy.1
    let cur := np_clip (penalty_emit p.1 p.2) (-1) 1
    if st._new_episode then
      let stackPuck := deque_extend (n_stacked_obs_puck_pos .s7) st.stacked_obs_puck_pos
        (List.replicate (n_stacked_obs_puck_pos .s7) puckXy)
      let stackRot := deque_extend (n_stacked_obs_puck_rot .s7) st.stacked_obs_puck_rot
        (List.replicate (n_stacked_obs_puck_rot .s7) puckRot)
      let stackEe := deque_extend (n_stacked_obs_participant_ee_pos .s7)
        st.stacked_obs_participant_ee_pos
        (List.replicate (n_stacked_obs_participant_ee_pos .s7) eeXy)
      let stackOpp := deque_extend (n_stacked_obs_opponent_ee_pos .s7)
        st.stacked_obs_opponent_ee_pos
        (List.replicate (n_stacked_obs_opponent_ee_pos .s7) oppXy)
      { obs := cur :: (jointNorm ++ (flatten_pairs stackPuck ++ flatten_pairs stackRot
          ++ flatten_pairs stackEe ++ flatten_pairs stackOpp))
        st := { st with stacked_obs_puck_pos := stackPuck
                        stacked_obs_puck_rot := stackRot
                        stacked_obs_participant_ee_pos := stackEe
                        stacked_obs_opponent_ee_pos := stackOpp
                        penalty_side := some p.1
                        penalty_timer := p.2
                        _new_episode := false }
        current_joint_pos := raw.joint_pos
        current_ee_pos := eePos
        current_ee_pos_xy_norm := eeXy }
    else
      let upd := s7_puck_update cfg st rng puckXy puckRot
      let stackEe := deque_append (n_stacked_obs_participant_ee_pos .s7)
        st.stacked_obs_participant_ee_pos eeXy
      let stackOpp := deque_append (n_stacked_obs_opponent_ee_pos .s7)
        st.stacked_obs_opponent_ee_pos oppXy
      { obs := cur :: (jointNorm ++ (flatten_pairs upd.1 ++ flatten_pairs upd.2.1
          ++ flatten_pairs stackEe ++ flatten_pairs stackOpp))
        st := { st with stacked_obs_puck_pos := upd.1
                        stacked_obs_puck_rot := upd.2.1
                        stacked_obs_participant_ee_pos := stackEe
                        stacked_obs_opponent_ee_pos := stackOpp
                        penalty_side := some p.1
                        penalty_timer := p.2
                        lose_tracking_probability := upd.2.2.1
                        lose_tracking_n_steps_remaining := upd.2.2.2 }
        current_joint_pos := raw.joint_pos
        current_ee_pos := eePos
        current_ee_pos_xy_norm := eeXy }

/-! ## Action decoder (SpaceRAgent.process_raw_act) -/

/-- The action filter (spacer_agent.py lines 650-658): exponential
smoothing of the normalized target xy, with the previous value seeded to
the current normalized end-effector position on the first call after a
reset.  Returns the filtered target and the stored previous value; with
filtering disabled the target and the stored value pass through. -/
def filter_action (cfg : AgentCfg) (prev : Option (ℚ × ℚ))
    (current_ee_pos_xy_norm : ℚ × ℚ) (action : ℚ × ℚ) : (ℚ × ℚ) × Option (ℚ × ℚ) :=
  if cfg.filter_actions_enabled then
    let p := prev.getD current_ee_pos_xy_norm
    let t := (cfg.filter_actions_coefficient * p.1
                + (1 - cfg.filter_actions_coefficient) * action.1,
              cfg.filter_actions_coefficient * p.2
                + (1 - cfg.filter_actions_coefficient) * action.2)
    (t, some t)
  else (action, prev)

/-- target_ee_pos (spacer_agent.py lines 660-678): the filtered action
unnormalized into the operating area, the desired height appended, and (in
training only) actuation noise added to the xy components. -/
def target_ee_pos (env : EnvInfo) (cfg : AgentCfg) (prev : Option (ℚ × ℚ))
    (current_ee_pos_xy_norm : ℚ × ℚ) (rng : NoiseDraws) (action : ℚ × ℚ) :
    ℚ × ℚ × ℚ :=
  let t := (filter_action cfg prev current_ee_pos_xy_norm action).1
  let mm := ee_table_minmax env cfg
  let x := _unnormalize_value t.1 mm.1.1 mm.1.2
  let y := _unnormalize_value t.2 mm.2.1 mm.2.2
  if cfg.evaluate then (x, y, env.robot_ee_desired_height)
  else (x + cfg.noise_act_std * rng.act_noise.1,
        y + cfg.noise_act_std * rng.act_noise.2,
        env.robot_ee_desired_height)

/-- The SVD-derived direction weights (spacer_agent.py lines 684-688): the
first two singular values are replaced by their mean, the third is scaled
by the z position control tolerance, the result is inverted elementwise and
normalized to unit sum.  The singular values sv are the oracle output of
np.linalg.svd on the 3xN positional Jacobian. -/
def ik_weights (z_position_control_tolerance : ℚ) (sv : Fin 3 → ℚ) : Fin 3 → ℚ :=
  let sMean := (sv 0 + sv 1) / 2
  let sAdj : Fin 3 → ℚ := fun k =>
    if (k : ℕ) < 2 then sMean else sv 2 * z_position_control_tolerance
  let sInv : Fin 3 → ℚ := fun k => 1 / sAdj k
  fun k => sInv k / (sInv 0 + sInv 1 + sInv 2)

/-- joint_vel before the velocity-limit step (spacer_agent.py lines
689-693): jac_pinv * target_ee_disp multiplies column k of the oracle
pseudo-inverse by displacement component k; np.average over the columns
with the ik_weights divides the weighted sum by the weight sum; the
displacement is divided by the timestep. -/
def ik_joint_vel (n : ℕ) (z_position_control_tolerance dt : ℚ)
    (jac_pinv : Fin n → Fin 3 → ℚ) (sv : Fin 3 → ℚ) (delta : Fin 3 → ℚ) :
    Fin n → ℚ :=
  let w := ik_weights z_position_control_tolerance sv
  let joint_disp : Fin n → ℚ := fun i =>
    (w 0 * (jac_pinv i 0 * delta 0) + w 1 * (jac_pinv i 1 * delta 1)
        + w 2 * (jac_pinv i 2 * delta 2))
      / (w 0 + w 1 + w 2)
  fun i => joint_disp i / dt

/-- The uniform downscaling factor of the velocity-limit step
(spacer_agent.py lines 701-716): starting from 1.0, take the minimum over
the joints outside their scaled limits of
1 - (excess over the violated limit) / (proposed velocity). -/
def downscaling_factor (n : ℕ) (low_scaled high_scaled v : Fin n → ℚ) : ℚ :=
  ((List.finRange n).filter fun i => v i < low_scaled i ∨ high_scaled i < v i).foldl
    (fun acc i =>
      min acc (1 - ((v i - (if high_scaled i < v i then high_scaled i else low_scaled i))
        / v i)))
    1

/-- The velocity-limit step (spacer_agent.py lines 695-718): when any joint
velocity lies outside its scaled limits, the whole vector is multiplied by
the single downscaling factor; otherwise it passes through unchanged. -/
def limit_joint_vel (n : ℕ) (low_scaled high_scaled : Fin n → ℚ) (v : Fin n → ℚ) :
    Fin n → ℚ :=
  if ∃ i, v i < low_scaled i ∨ high_scaled i < v i then
    fun i => v i * downscaling_factor n low_scaled high_scaled v
  else v

/-- The values process_raw_act reads from the agent instance: the filter
state, the values the preceding process_raw_obs call cached, the per-joint
velocity limits from env_info, and the oracle outputs of np.linalg.pinv and
np.linalg.svd on the 3xN positional Jacobian at the current joint
configuration. -/
structure ActInputs (n : ℕ) where
  previous_ee_pos_xy_norm : Option (ℚ × ℚ)
  current_ee_pos_xy_norm : ℚ × ℚ
  current_ee_pos : ℚ × ℚ × ℚ
  current_joint_pos : Fin n → ℚ
  jac_pinv : Fin n → Fin 3 → ℚ
  sv : Fin 3 → ℚ
  robot_joint_vel_limit_low : Fin n → ℚ
  robot_joint_vel_limit_high : Fin n → ℚ

/-- What process_raw_act returns (the (joint_pos, joint_vel) command pair),
together with the filter state it stores for the next call. -/
structure ActResult (n : ℕ) where
  joint_pos : Fin n → ℚ
  joint_vel : Fin n → ℚ
  previous_ee_pos_xy_norm : Option (ℚ × ℚ)

/-- Lower row of self.robot_joint_vel_limit_scaled (spacer_agent.py lines
773-775): the joint velocity limits scaled by the constraint factor. -/
def robot_joint_vel_limit_scaled_low (n : ℕ) (cfg : AgentCfg) (inp : ActInputs n) :
    Fin n → ℚ :=
  fun i => cfg.vel_constraints_scaling_factor * inp.robot_joint_vel_limit_low i

/-- Upper row of self.robot_joint_vel_limit_scaled. -/
def robot_joint_vel_limit_scaled_high (n : ℕ) (cfg : AgentCfg) (inp : ActInputs n) :
    Fin n → ℚ :=
  fun i => cfg.vel_constraints_scaling_factor * inp.robot_joint_vel_limit_high i

/-- joint_vel of process_raw_act before the velocity-limit step: the
composition of the action filter, the unnormalization to a 3-d Cartesian
target, the displacement from the current end-effector position, and the
weighted inverse-Jacobian solve. -/
def pre_limit_joint_vel (n : ℕ) (env : EnvInfo) (cfg : AgentCfg)
    (inp : ActInputs n) (rng : NoiseDraws) (action : ℚ × ℚ) : Fin n → ℚ :=
  let tgt := target_ee_pos env cfg inp.previous_ee_pos_xy_norm
    inp.current_ee_pos_xy_norm rng action
  let delta : Fin 3 → ℚ := fun k =>
    if (k : ℕ) = 0 then tgt.1 - inp.current_ee_pos.1
    else if (k : ℕ) = 1 then tgt.2.1 - inp.current_ee_pos.2.1
    else tgt.2.2 - inp.current_ee_pos.2.2
  ik_joint_vel n cfg.z_position_control_tolerance env.sim_dt inp.jac_pinv inp.sv delta

/-- SpaceRAgent.process_raw_act (spacer_agent.py lines 648-726): filter the
normalized target, solve the weighted inverse kinematics, enforce the
scaled velocity limits and integrate the joint positions over one
timestep. -/
def process_raw_act (n : ℕ) (env : EnvInfo) (cfg : AgentCfg) (inp : ActInputs n)
    (rng : NoiseDraws) (action : ℚ × ℚ) : ActResult n :=
  let jv := limit_joint_vel n (robot_joint_vel_limit_scaled_low n cfg inp)
    (robot_joint_vel_limit_scaled_high n cfg inp)
    (pre_limit_joint_vel n env cfg inp rng action)
  { joint_pos := fun i => inp.current_joint_pos i + env.sim_dt * jv i
    joint_vel := jv
    previous_ee_pos_xy_norm :=
      (filter_action cfg inp.previous_ee_pos_xy_norm inp.current_ee_pos_xy_norm action).2 }

/-! ## Reward shapers (utils/rewards.py) -/

/-- Constructor arguments of TournamentReward (rewards.py lines 7-19). -/
structure TournamentRewardCfg where
  reward_agent_score_goal : ℚ
  reward_agent_receive_goal : ℚ
  reward_opponent_faul : ℚ
  reward_agent_faul : ℚ
  reward_agent_cause_puck_stuck : ℚ

/-- The mutable penalty state of TournamentReward (rewards.py lines 22-23). -/
structure RewardTimerState where
  penalty_timer : ℚ
  penalty_side : Option ℚ

namespace TournamentReward

/-- TournamentReward.MAX_TIME_UNTIL_PENALTY_S (rewards.py line 5). -/
def MAX_TIME_UNTIL_PENALTY : ℚ := 15

/-- self._penalty_threshold = 0.75 * MAX_TIME_UNTIL_PENALTY_S (line 20). -/
def penalty_threshold : ℚ := 0.75 * MAX_TIME_UNTIL_PENALTY

end TournamentReward

/-- TournamentReward.__call__ (rewards.py lines 25-77).  The penalty
side/timer update runs on every step; the scoring block runs when the step
is absorbing (or within the source's literal first-two-steps guard
sim_time < dt * 2).  The ValueError raised when the penalty side is neither
-1 nor +1 is modelled as none.  Returns the reward together with the state
the instance keeps for the next call. -/
def tournament_reward_step (table_length goal_width dt : ℚ)
    (cfg : TournamentRewardCfg) (st : RewardTimerState)
    (puck_pos : ℚ × ℚ) (puck_vel_x : ℚ) (absorbing : Bool) (sim_time : ℚ) :
    Option (ℚ × RewardTimerState) :=
  let side0 := match st.penalty_side with
    | none => np_sign puck_pos.1
    | some s => s
  let side1 := if np_sign puck_pos.1 = side0 then side0 else -side0
  let timer1 := if np_sign puck_pos.1 = side0 then st.penalty_timer + dt else 0
  if absorbing || sim_time < dt * 2 then
    let r0 : Option ℚ :=
      if TournamentReward.penalty_threshold < timer1 ∧ (0.15 : ℚ) ≤ |puck_pos.1| then
        if side1 = -1 then some cfg.reward_agent_faul
        else if side1 = 1 then some cfg.reward_opponent_faul
        else none
      else some 0
    match r0 with
    | none => none
    | some r1 =>
      let r2 := if |puck_pos.1| < (0.15 : ℚ) ∧ |puck_vel_x| < (0.025 : ℚ) then
          cfg.reward_agent_cause_puck_stuck
        else r1
      let r3 := if |puck_pos.2| - goal_width / 2 ≤ 0 then
          (if table_length / 2 < puck_pos.1 then cfg.reward_agent_score_goal
           else if puck_pos.1 < -(table_length / 2) then cfg.reward_agent_receive_goal
           else r2)
        else r2
      some (r3, ⟨0, none⟩)
  else
    some (0, ⟨timer1, some side1⟩)

namespace HitReward

/-- The fixed goal point of HitReward.__call__ (rewards.py line 90). -/
def goal : ℚ × ℚ := (0.98, 0)

/-- Width of the table half minus the radius of the puck (rewards.py
lines 95-97). -/
def effective_width (table_width puck_radius : ℚ) : ℚ :=
  table_width / 2 - puck_radius

/-- The denominator of the bounce-point computation w (rewards.py
line 105). -/
def bounce_denominator (table_width puck_radius : ℚ) (puck_pos : ℚ × ℚ) : ℚ :=
  |puck_pos.2| + goal.2 - 2 * effective_width table_width puck_radius

/-- The bounce point abscissa w, assuming incoming angle = outgoing angle
(rewards.py lines 100-105). -/
def bounce_w (table_width puck_radius : ℚ) (puck_pos : ℚ × ℚ) : ℚ :=
  (|puck_pos.2| * goal.1 + goal.2 * puck_pos.1
      - effective_width table_width puck_radius * puck_pos.1
      - effective_width table_width puck_radius * goal.1)
    / bounce_denominator table_width puck_radius puck_pos

/-- side_point (rewards.py line 106). -/
def side_point (table_width puck_radius : ℚ) (puck_pos : ℚ × ℚ) : ℚ × ℚ :=
  (bounce_w table_width puck_radius puck_pos,
   np_copysign (effective_width table_width puck_radius) puck_pos.2)

end HitReward

/-! ## Specification predicates -/

/-- A scalar within the unit interval [-1, 1]. -/
def bounded1 (v : ℚ) : Prop := -1 ≤ v ∧ v ≤ 1

instance (v : ℚ) : Decidable (bounded1 v) :=
  inferInstanceAs (Decidable (-1 ≤ v ∧ v ≤ 1))

/-- Both components of an observation pair within [-1, 1]. -/
def pair_bounded (p : ℚ × ℚ) : Prop := bounded1 p.1 ∧ bounded1 p.2

instance (p : ℚ × ℚ) : Decidable (pair_bounded p) :=
  inferInstanceAs (Decidable (bounded1 p.1 ∧ bounded1 p.2))

/-- Every stored pair of a history stack within [-1, 1]. -/
def stack_bounded (xs : List (ℚ × ℚ)) : Prop := ∀ p ∈ xs, pair_bounded p

instance (xs : List (ℚ × ℚ)) : Decidable (stack_bounded xs) :=
  inferInstanceAs (Decidable (∀ p ∈ xs, pair_bounded p))

/-- Every value stored in the encoder state within [-1, 1]: true after
reset (the stacks are empty) and, as proved below, preserved by every
process_raw_obs call. -/
def obs_state_bounded (st : ObsState) : Prop :=
  stack_bounded st.stacked_obs_participant_ee_pos ∧
  stack_bounded st.stacked_obs_opponent_ee_pos ∧
  stack_bounded st.stacked_obs_puck_pos ∧
  stack_bounded st.stacked_obs_puck_rot

instance (st : ObsState) : Decidable (obs_state_bounded st) :=
  inferInstanceAs (Decidable (stack_bounded _ ∧ stack_bounded _ ∧
    stack_bounded _ ∧ stack_bounded _))

/-- Every history stack holds exactly its scheme-declared depth (the puck
rotation stack exists only for scheme 7). -/
def obs_state_warm (scheme : Scheme) (st : ObsState) : Prop :=
  st.stacked_obs_participant_ee_pos.length = n_stacked_obs_participant_ee_pos scheme ∧
  st.stacked_obs_opponent_ee_pos.length = n_stacked_obs_opponent_ee_pos scheme ∧
  st.stacked_obs_puck_pos.length = n_stacked_obs_puck_pos scheme ∧
  (scheme = .s7 → st.stacked_obs_puck_rot.length = n_stacked_obs_puck_rot scheme)

instance (scheme : Scheme) (st : ObsState) : Decidable (obs_state_warm scheme st) :=
  inferInstanceAs (Decidable (_ = _ ∧ _ = _ ∧ _ = _ ∧ (_ → _)))

/-- The states process_raw_obs can be called from: for schemes 2-4 the
deque maxlen bounds the stack lengths (the reset state and every later
state satisfy this); for schemes 5-7 either the episode is fresh (the
replicate-fill branch will run) or every stack is warm. -/
def obs_state_wf (scheme : Scheme) (st : ObsState) : Prop :=
  match scheme with
  | .s2 | .s3 | .s4 =>
    st.stacked_obs_participant_ee_pos.length ≤ n_stacked_obs_participant_ee_pos scheme ∧
    st.stacked_obs_opponent_ee_pos.length ≤ n_stacked_obs_opponent_ee_pos scheme ∧
    st.stacked_obs_puck_pos.length ≤ n_stacked_obs_puck_pos scheme
  | .s5 | .s6 | .s7 => st._new_episode = true ∨ obs_state_warm scheme st

instance (scheme : Scheme) (st : ObsState) : Decidable (obs_state_wf scheme st) := by
  unfold obs_state_wf
  cases scheme <;> exact inferInstanceAs (Decidable _)

/-! ## Sample concrete inputs

Concrete instances used to evaluate the theorems below at specific
inputs. -/

/-- A concrete environment: a 2 x 1 table, 7 joints. -/
def sample_env : EnvInfo :=
  { table_length := 2
    table_width := 1
    goal_width := 1/4
    puck_radius := 1/32
    mallet_radius := 1/20
    robot_ee_desired_height := 1/16
    robot_base_frame_x := -3/2
    robot_joint_pos_limit_low := List.replicate 7 (-3)
    robot_joint_pos_limit_high := List.replicate 7 3
    sim_dt := 1/50 }

/-- A concrete evaluation-mode configuration (the constructor defaults). -/
def sample_cfg_eval : AgentCfg :=
  { evaluate := true
    vel_constraints_scaling_factor := 13/20
    filter_actions_enabled := true
    filter_actions_coefficient := 3/4
    operating_area_offset_from_centre := 17/100
    operating_area_offset_from_table := 1/50
    operating_area_offset_from_goal := 1/100
    z_position_control_tolerance := 7/20
    noise_obs_opponent_ee_pos_std := 1/100
    noise_obs_ee_pos_std := 1/2000
    noise_obs_puck_pos_std := 1/500
    noise_act_std := 1/2000
    loss_of_tracking_prob_inc_per_step := 1/200000
    loss_of_tracking_min_steps := 2
    loss_of_tracking_max_steps := 5 }

/-- The same configuration in training mode. -/
def sample_cfg_train : AgentCfg :=
  { sample_cfg_eval with evaluate := false }

/-- A concrete raw observation. -/
def sample_raw : RawObs :=
  { joint_pos := List.replicate 7 0
    ee_pos := (1/2, 0, 1/16)
    opponent_ee_pos := (5/2, 0)
    puck_pos := (3/2, 1/4, 0) }

/-- One concrete batch of random draws. -/
def sample_rng : NoiseDraws :=
  { ee_noise := (0, 0, 0)
    opponent_noise := (0, 0)
    puck_noise := (0, 0, 0)
    uniform_draw := 1/2
    int_draw := 0
    act_noise := (0, 0) }

/-- A different concrete batch of random draws. -/
def sample_rng2 : NoiseDraws :=
  { ee_noise := (1, -1, 1)
    opponent_noise := (1, -1)
    puck_noise := (1, -1, 1)
    uniform_draw := 0
    int_draw := 1
    act_noise := (1, -1) }

/-- Concrete decoder inputs over two joints, with velocity limits
straddling zero and a proposed-velocity configuration that triggers the
limit step. -/
def sample_act_inputs : ActInputs 2 :=
  { previous_ee_pos_xy_norm := none
    current_ee_pos_xy_norm := (0, 0)
    current_ee_pos := (1/2, 0, 1/16)
    current_joint_pos := fun _ => 0
    jac_pinv := fun _ _ => 1
    sv := fun _ => 1
    robot_joint_vel_limit_low := fun _ => -2
    robot_joint_vel_limit_high := fun _ => 2 }

/-! ## Helper lemmas: clipping and ranges -/

theorem np_clip_bounded1 (v : ℚ) : bounded1 (np_clip v (-1) 1) :=
  ⟨le_min (le_max_right v (-1)) (by norm_num), min_le_right _ _⟩

theorem norm_clip_bounded1 (v low high : ℚ) : bounded1 (norm_clip v low high) :=
  np_clip_bounded1 _

theorem norm_clip_pair_bounded (p : ℚ × ℚ) (mm : (ℚ × ℚ) × (ℚ × ℚ)) :
    pair_bounded (norm_clip_pair p mm) :=
  ⟨norm_clip_bounded1 _ _ _, norm_clip_bounded1 _ _ _⟩

theorem norm_clip_list_bounded (vs lows highs : List ℚ) :
    ∀ v ∈ norm_clip_list vs lows highs, bounded1 v := by
  intro v hv
  unfold norm_clip_list at hv
  obtain ⟨x, _, rfl⟩ := List.mem_map.mp hv
  exact norm_clip_bounded1 _ _ _

theorem length_norm_clip_list (vs lows highs : List ℚ) :
    (norm_clip_list vs lows highs).length
      = min vs.length (min lows.length highs.length) := by
  simp [norm_clip_list]

/-! ## Helper lemmas: deques and flattening -/

theorem length_deque_append {α : Type} (m : ℕ) (xs : List α) (v : α) :
    (deque_append m xs v).length = min (xs.length + 1) m := by
  simp only [deque_append, List.length_drop, List.length_append, List.length_cons,
    List.length_nil]
  omega

theorem mem_deque_append {α : Type} {m : ℕ} {xs : List α} {v a : α}
    (h : a ∈ deque_append m xs v) : a ∈ xs ∨ a = v := by
  have h2 : a ∈ xs ++ [v] := List.drop_subset _ _ h
  simpa using h2

theorem mem_deque_extend {α : Type} {m : ℕ} {xs vs : List α} {a : α}
    (h : a ∈ deque_extend m xs vs) : a ∈ xs ∨ a ∈ vs := by
  have h2 : a ∈ xs ++ vs := List.drop_subset _ _ h
  simpa using h2

theorem deque_extend_full {α : Type} (m : ℕ) (xs vs : List α) (h : vs.length = m) :
    deque_extend m xs vs = vs := by
  unfold deque_extend
  have h2 : (xs ++ vs).length - m = xs.length := by
    simp [List.length_append, h]
  rw [h2, List.drop_left]

theorem length_push_fill {α : Type} (m : ℕ) (xs : List α) (v : α) :
    (push_fill m xs v).length = m := by
  unfold push_fill
  have h := length_deque_append m xs v
  simp only [List.length_append, List.length_replicate, h]
  omega

theorem mem_push_fill {α : Type} {m : ℕ} {xs : List α} {v a : α}
    (h : a ∈ push_fill m xs v) : a ∈ xs ∨ a = v := by
  unfold push_fill at h
  rcases List.mem_append.mp h with h | h
  · exact mem_deque_append h
  · exact Or.inr (List.eq_of_mem_replicate h)

theorem length_flatten_pairs (xs : List (ℚ × ℚ)) :
    (flatten_pairs xs).length = 2 * xs.length := by
  induction xs with
  | nil => rfl
  | cons p l ih =>
    simp only [flatten_pairs, List.flatMap_cons] at ih ⊢
    simp only [List.length_append, List.length_cons, List.length_nil, ih]
    omega

theorem flatten_pairs_bounded {xs : List (ℚ × ℚ)} (h : stack_bounded xs) :
    ∀ v ∈ flatten_pairs xs, bounded1 v := by
  intro v hv
  unfold flatten_pairs at hv
  obtain ⟨p, hp, hvp⟩ := List.mem_flatMap.mp hv
  have hb := h p hp
  simp only [List.mem_cons, List.not_mem_nil, or_false] at hvp
  rcases hvp with rfl | rfl
  · exact hb.1
  · exact hb.2

theorem stack_bounded_deque_append {m : ℕ} {xs : List (ℚ × ℚ)} {v : ℚ × ℚ}
    (hxs : stack_bounded xs) (hv : pair_bounded v) :
    stack_bounded (deque_append m xs v) := by
  intro p hp
  rcases mem_deque_append hp with h | rfl
  · exact hxs p h
  · exact hv

theorem stack_bounded_replicate {k : ℕ} {v : ℚ × ℚ} (hv : pair_bounded v) :
    stack_bounded (List.replicate k v) := by
  intro p hp
  rw [List.eq_of_mem_replicate hp]
  exact hv

theorem stack_bounded_deque_extend {m : ℕ} {xs vs : List (ℚ × ℚ)}
    (hxs : stack_bounded xs) (hvs : stack_bounded vs) :
    stack_bounded (deque_extend m xs vs) := by
  intro p hp
  rcases mem_deque_extend hp with h | h
  · exact hxs p h
  · exact hvs p h

theorem stack_bounded_push_fill {m : ℕ} {xs : List (ℚ × ℚ)} {v : ℚ × ℚ}
    (hxs : stack_bounded xs) (hv : pair_bounded v) :
    stack_bounded (push_fill m xs v) := by
  intro p hp
  rcases mem_push_fill hp with h | rfl
  · exact hxs p h
  · exact hv

theorem pair_bounded_getLastD {xs : List (ℚ × ℚ)} (h : stack_bounded xs) :
    pair_bounded (xs.getLastD (0, 0)) := by
  rw [List.getLastD_eq_getLast?]
  cases hx : xs.getLast? with
  | none => exact ⟨⟨by norm_num, by norm_num⟩, by norm_num, by norm_num⟩
  | some p =>
    obtain ⟨hne, hp⟩ := List.mem_getLast?_eq_getLast (Option.mem_def.mpr hx)
    have hb := h _ (List.getLast_mem hne)
    rw [Option.getD_some, hp]
    exact hb

/-! ## Helper lemmas: the scheme-7 puck history update -/

theorem s7_puck_update_length (cfg : AgentCfg) (st : ObsState) (rng : NoiseDraws)
    (puckXy puckRot : ℚ × ℚ)
    (hp : st.stacked_obs_puck_pos.length = n_stacked_obs_puck_pos .s7)
    (hr : st.stacked_obs_puck_rot.length = n_stacked_obs_puck_rot .s7) :
    (s7_puck_update cfg st rng puckXy puckRot).1.length = n_stacked_obs_puck_pos .s7 ∧
    (s7_puck_update cfg st rng puckXy puckRot).2.1.length
      = n_stacked_obs_puck_rot .s7 := by
  unfold s7_puck_update
  split_ifs <;>
    refine ⟨?_, ?_⟩ <;>
      simp [length_deque_append, hp, hr, n_stacked_obs_puck_pos, n_stacked_obs_puck_rot]

theorem s7_puck_update_bounded (cfg : AgentCfg) (st : ObsState) (rng : NoiseDraws)
    (puckXy puckRot : ℚ × ℚ)
    (hp : stack_bounded st.stacked_obs_puck_pos)
    (hr : stack_bounded st.stacked_obs_puck_rot)
    (hXy : pair_bounded puckXy) (hRot : pair_bounded puckRot) :
    stack_bounded (s7_puck_update cfg st rng puckXy puckRot).1 ∧
    stack_bounded (s7_puck_update cfg st rng puckXy puckRot).2.1 := by
  unfold s7_puck_update
  split_ifs <;>
    exact ⟨stack_bounded_deque_append hp (by first
        | exact hXy
        | exact pair_bounded_getLastD hp),
      stack_bounded_deque_append hr (by first
        | exact hRot
        | exact pair_bounded_getLastD hr)⟩

theorem stack_bounded_stack_step {m : ℕ} (b : Bool) {xs : List (ℚ × ℚ)}
    {v : ℚ × ℚ} (hxs : stack_bounded xs) (hv : pair_bounded v) :
    stack_bounded
      (if b then deque_extend m xs (List.replicate m v) else deque_append m xs v) := by
  cases b
  · simpa using stack_bounded_deque_append hxs hv
  · simpa using stack_bounded_deque_extend hxs (stack_bounded_replicate hv)

/-! ## Helper lemmas: folded minimum -/

theorem foldl_min_le_init {α : Type} (f : α → ℚ) (l : List α) (a : ℚ) :
    l.foldl (fun acc i => min acc (f i)) a ≤ a := by
  induction l generalizing a with
  | nil => exact le_refl a
  | cons x xs ih => exact le_trans (ih (min a (f x))) (min_le_left _ _)

theorem foldl_min_le_mem {α : Type} (f : α → ℚ) (l : List α) (a : ℚ) {i : α}
    (hi : i ∈ l) : l.foldl (fun acc j => min acc (f j)) a ≤ f i := by
  induction l generalizing a with
  | nil => cases hi
  | cons x xs ih =>
    rcases List.mem_cons.mp hi with rfl | h
    · exact le_trans (foldl_min_le_init f xs (min a (f i))) (min_le_right _ _)
    · exact ih _ h

theorem foldl_min_eq_init_or_mem {α : Type} (f : α → ℚ) (l : List α) (a : ℚ) :
    l.foldl (fun acc j => min acc (f j)) a = a ∨
      ∃ i ∈ l, l.foldl (fun acc j => min acc (f j)) a = f i := by
  induction l generalizing a with
  | nil => exact Or.inl rfl
  | cons x xs ih =>
    rcases ih (min a (f x)) with h | ⟨i, hi, h⟩
    · rcases min_cases a (f x) with ⟨he, _⟩ | ⟨he, _⟩
      · exact Or.inl (by rw [List.foldl_cons, h, he])
      · exact Or.inr ⟨x, List.mem_cons_self x xs, by rw [List.foldl_cons, h, he]⟩
    · exact Or.inr ⟨i, List.mem_cons_of_mem x hi, h⟩

/-! ## Claim C8: normalization round trip -/

/-- C8: for every x strictly inside the declared physical range [low, high]
with low < high, _unnormalize_value inverts _normalize_value exactly over
the rationals. -/
theorem C8_normalize_unnormalize_roundtrip (x low high : ℚ) (hlh : low < high)
    (hlx : low < x) (hxh : x < high) :
    _unnormalize_value (_normalize_value x low high) low high = x := by
  have hne : high - low ≠ 0 := sub_ne_zero_of_ne (ne_of_gt hlh)
  unfold _normalize_value _unnormalize_value
  field_simp

/-- Witness for C8 at x = 3 strictly inside [0, 10]. -/
theorem C8_normalize_unnormalize_roundtrip_witness :
    _unnormalize_value (_normalize_value 3 0 10) 0 10 = 3 :=
  C8_normalize_unnormalize_roundtrip 3 0 10 (by norm_num) (by norm_num) (by norm_num)

/-! ## Claim C10: hit-reward bounce denominator -/

/-- C10: for every puck position actually on the table and the fixed goal
point of HitReward, the bounce-point denominator is strictly negative and
hence nonzero, so side_point is computed without division by zero. -/
theorem C10_hit_bounce_denominator_negative (table_width puck_radius : ℚ)
    (puck_pos : ℚ × ℚ) (hr0 : 0 < puck_radius) (hrw : puck_radius < table_width / 2)
    (hy : |puck_pos.2| ≤ table_width / 2 - puck_radius) :
    HitReward.bounce_denominator table_width puck_radius puck_pos < 0 ∧
    HitReward.bounce_denominator table_width puck_radius puck_pos ≠ 0 := by
  have h : HitReward.bounce_denominator table_width puck_radius puck_pos < 0 := by
    unfold HitReward.bounce_denominator HitReward.effective_width HitReward.goal
    norm_num
    linarith
  exact ⟨h, ne_of_lt h⟩

/-- Witness for C10 on a width-1 table with puck radius 1/32 and the puck
at lateral offset 1/4. -/
theorem C10_hit_bounce_denominator_negative_witness :
    HitReward.bounce_denominator 1 (1/32) (0, 1/4) < 0 ∧
    HitReward.bounce_denominator 1 (1/32) (0, 1/4) ≠ 0 :=
  C10_hit_bounce_denominator_negative 1 (1/32) (0, 1/4) (by norm_num) (by norm_num)
    (by norm_num [abs_le])

/-! ## Claim C9: tournament puck-stuck reward and terminal reset -/

/-- C9: on an absorbing step with the puck resting at the table centre
(absolute x under 0.15) and near-zero x velocity, TournamentReward returns
the configured puck-stuck value, not the goal or fault value; and on every
absorbing step whose call returns, the stored penalty timer is reset to 0
and the penalty side to unset. -/
theorem C9_tournament_puck_stuck_and_reset (table_length goal_width dt : ℚ)
    (cfg : TournamentRewardCfg) (st : RewardTimerState) (puck_pos : ℚ × ℚ)
    (puck_vel_x sim_time : ℚ)
    (hx : |puck_pos.1| < 0.15) (hv : |puck_vel_x| < 0.025)
    (hlen : (0.15 : ℚ) ≤ table_length / 2) :
    tournament_reward_step table_length goal_width dt cfg st puck_pos puck_vel_x
        true sim_time
      = some (cfg.reward_agent_cause_puck_stuck, ⟨0, none⟩) ∧
    ∀ (tl gw dt' : ℚ) (cfg' : TournamentRewardCfg) (st' : RewardTimerState)
      (pp : ℚ × ℚ) (pv stime r : ℚ) (stOut : RewardTimerState),
      tournament_reward_step tl gw dt' cfg' st' pp pv true stime = some (r, stOut) →
      stOut = ⟨0, none⟩ := by
  constructor
  · have hx1 : ¬ ((0.15 : ℚ) ≤ |puck_pos.1|) := not_le.mpr hx
    have hxa := abs_lt.mp hx
    have hng : ¬ (table_length / 2 < puck_pos.1) := by
      push_neg
      linarith [hxa.2]
    have hng2 : ¬ (puck_pos.1 < -(table_length / 2)) := by
      push_neg
      linarith [hxa.1]
    unfold tournament_reward_step
    simp [hx1, hx, hv, hng, hng2]
  · intro tl gw dt' cfg' st' pp pv stime r stOut h
    unfold tournament_reward_step at h
    simp only [Bool.true_or, if_true] at h
    split at h
    · exact Option.noConfusion h
    · rw [Option.some.injEq, Prod.mk.injEq] at h
      exact h.2.symm

/-- Witness for C9: a puck at the exact centre with zero velocity on a
length-2 table yields the configured puck-stuck value 5. -/
theorem C9_tournament_puck_stuck_and_reset_witness :
    tournament_reward_step 2 (1/4) (1/50) ⟨1, -1, 1/3, -1/3, 5⟩ ⟨0, none⟩ (0, 0) 0
        true 100
      = some (5, ⟨0, none⟩) ∧
    ∀ (tl gw dt' : ℚ) (cfg' : TournamentRewardCfg) (st' : RewardTimerState)
      (pp : ℚ × ℚ) (pv stime r : ℚ) (stOut : RewardTimerState),
      tournament_reward_step tl gw dt' cfg' st' pp pv true stime = some (r, stOut) →
      stOut = ⟨0, none⟩ :=
  C9_tournament_puck_stuck_and_reset 2 (1/4) (1/50) ⟨1, -1, 1/3, -1/3, 5⟩ ⟨0, none⟩
    (0, 0) 0 100 (by norm_num) (by norm_num) (by norm_num)

/-! ## Claim C7: action filter algebra -/

/-- C7: with filtering enabled the filter computes
smoothed = alpha * previous + (1 - alpha) * target and stores the smoothed
value as the new previous value; alpha = 1 returns the previous value
unchanged for any target, alpha = 0 returns the target unchanged, and on
the first call after a reset the previous value is seeded from the current
normalized end-effector position, not from the raw target. -/
theorem C7_action_filter_smoothing :
    (∀ (cfg : AgentCfg) (prev : Option (ℚ × ℚ)) (cur a : ℚ × ℚ),
        cfg.filter_actions_enabled = true →
        (filter_action cfg prev cur a).1
            = (cfg.filter_actions_coefficient * (prev.getD cur).1
                + (1 - cfg.filter_actions_coefficient) * a.1,
               cfg.filter_actions_coefficient * (prev.getD cur).2
                + (1 - cfg.filter_actions_coefficient) * a.2) ∧
        (filter_action cfg prev cur a).2 = some (filter_action cfg prev cur a).1) ∧
    (∀ (cfg : AgentCfg) (p cur a : ℚ × ℚ), cfg.filter_actions_enabled = true →
        cfg.filter_actions_coefficient = 1 →
        (filter_action cfg (some p) cur a).1 = p) ∧
    (∀ (cfg : AgentCfg) (prev : Option (ℚ × ℚ)) (cur a : ℚ × ℚ),
        cfg.filter_actions_enabled = true → cfg.filter_actions_coefficient = 0 →
        (filter_action cfg prev cur a).1 = a) ∧
    (∀ (cfg : AgentCfg) (cur a : ℚ × ℚ), cfg.filter_actions_enabled = true →
        (filter_action cfg none cur a).1
          = (cfg.filter_actions_coefficient * cur.1
              + (1 - cfg.filter_actions_coefficient) * a.1,
             cfg.filter_actions_coefficient * cur.2
              + (1 - cfg.filter_actions_coefficient) * a.2)) := by
  refine ⟨?_, ?_, ?_, ?_⟩
  · intro cfg prev cur a he
    simp [filter_action, he]
  · intro cfg p cur a he ha
    simp [filter_action, he, ha]
  · intro cfg prev cur a he ha
    simp [filter_action, he, ha]
  · intro cfg cur a he
    simp [filter_action, he]

/-! ## Claim C4: signed penalty timer state machine -/

/-- C4: for schemes 3-7 the per-tick penalty timer follows the state
machine: from the unset state the side becomes the sign of the puck x
position with the timer still 0; an observed sign equal to the stored side
adds dt to the timer; a flipped sign flips the side and resets the timer;
process_raw_obs stores exactly this update for every scheme from 3 to 7 and
emits side * timer / MAX_TIME_UNTIL_PENALTY_S (clipped into the unit
interval) as the leading observation component; and on the puck-side
sequence [+, +, +, -, -] with dt = 0.1 the timers are [0, 0.1, 0.2, 0, 0.1]
with the side flipping exactly at index 3. -/
theorem C4_penalty_timer_state_machine :
    (∀ dt x : ℚ, penalty_step none 0 dt x = (np_sign x, 0)) ∧
    (∀ s timer dt x : ℚ, np_sign x = s →
        penalty_step (some s) timer dt x = (s, timer + dt)) ∧
    (∀ s timer dt x : ℚ, np_sign x ≠ s →
        penalty_step (some s) timer dt x = (-s, 0)) ∧
    (∀ (scheme : Scheme) (env : EnvInfo) (cfg : AgentCfg) (sinFn cosFn : ℚ → ℚ)
        (st : ObsState) (raw : RawObs) (rng : NoiseDraws),
        (scheme = .s3 ∨ scheme = .s4 ∨ scheme = .s5 ∨ scheme = .s6 ∨ scheme = .s7) →
        (process_raw_obs scheme env cfg sinFn cosFn st raw rng).st.penalty_side
            = some (penalty_step st.penalty_side st.penalty_timer env.sim_dt
                (fresh_puck_xy_norm env cfg raw rng).1).1 ∧
        (process_raw_obs scheme env cfg sinFn cosFn st raw rng).st.penalty_timer
            = (penalty_step st.penalty_side st.penalty_timer env.sim_dt
                (fresh_puck_xy_norm env cfg raw rng).1).2 ∧
        (process_raw_obs scheme env cfg sinFn cosFn st raw rng).obs.head?
            = some (np_clip (penalty_emit
                (penalty_step st.penalty_side st.penalty_timer env.sim_dt
                  (fresh_puck_xy_norm env cfg raw rng).1).1
                (penalty_step st.penalty_side st.penalty_timer env.sim_dt
                  (fresh_puck_xy_norm env cfg raw rng).1).2) (-1) 1)) ∧
    (∀ side timer : ℚ, penalty_emit side timer
        = side * timer / MAX_TIME_UNTIL_PENALTY_S) ∧
    penalty_run (1/10) [1, 1, 1, -1, -1]
        = [(1, 0), (1, 1/10), (1, 1/5), (-1, 0), (-1, 1/10)] := by
  refine ⟨?_, ?_, ?_, ?_, ?_, ?_⟩
  · intro dt x
    rfl
  · intro s timer dt x h
    simp [penalty_step, h]
  · intro s timer dt x h
    simp [penalty_step, h]
  · intro scheme env cfg sinFn cosFn st raw rng h
    rcases h with rfl | rfl | rfl | rfl | rfl
    · exact ⟨rfl, rfl, by simp [process_raw_obs]⟩
    · exact ⟨rfl, rfl, by simp [process_raw_obs]⟩
    · exact ⟨rfl, rfl, by simp [process_raw_obs]⟩
    · exact ⟨rfl, rfl, by simp [process_raw_obs]⟩
    · by_cases hne : st._new_episode <;> simp [process_raw_obs, hne]
  · intro side timer
    rfl
  · norm_num [penalty_run, penalty_step, np_sign]

/-! ## Claim C5: evaluation mode is deterministic -/

/-- C5: with the agent constructed in evaluation mode, process_raw_obs and
process_raw_act are independent of every random draw (so two runs from the
same state and inputs coincide), and the puck reading pushed into the
scheme-7 history buffers is always the fresh normalized reading taken from
the current raw observation, never a tracking-loss substitute. -/
theorem C5_evaluation_deterministic (cfg : AgentCfg) (heval : cfg.evaluate = true) :
    (∀ (scheme : Scheme) (env : EnvInfo) (sinFn cosFn : ℚ → ℚ) (st : ObsState)
        (raw : RawObs) (rng rng' : NoiseDraws),
        process_raw_obs scheme env cfg sinFn cosFn st raw rng
          = process_raw_obs scheme env cfg sinFn cosFn st raw rng') ∧
    (∀ (n : ℕ) (env : EnvInfo) (inp : ActInputs n) (rng rng' : NoiseDraws)
        (a : ℚ × ℚ),
        process_raw_act n env cfg inp rng a = process_raw_act n env cfg inp rng' a) ∧
    (∀ (env : EnvInfo) (sinFn cosFn : ℚ → ℚ) (st : ObsState) (raw : RawObs)
        (rng : NoiseDraws),
        (process_raw_obs .s7 env cfg sinFn cosFn st raw rng).st.stacked_obs_puck_pos
          = (if st._new_episode then
              List.replicate (n_stacked_obs_puck_pos .s7)
                (norm_clip_pair (raw.puck_pos.1, raw.puck_pos.2.1) (puck_table_minmax env))
             else
              deque_append (n_stacked_obs_puck_pos .s7) st.stacked_obs_puck_pos
                (norm_clip_pair (raw.puck_pos.1, raw.puck_pos.2.1)
                  (puck_table_minmax env))) ∧
        (process_raw_obs .s7 env cfg sinFn cosFn st raw rng).st.stacked_obs_puck_rot
          = (if st._new_episode then
              List.replicate (n_stacked_obs_puck_rot .s7)
                (sinFn raw.puck_pos.2.2, cosFn raw.puck_pos.2.2)
             else
              deque_append (n_stacked_obs_puck_rot .s7) st.stacked_obs_puck_rot
                (sinFn raw.puck_pos.2.2, cosFn raw.puck_pos.2.2))) := by
  refine ⟨?_, ?_, ?_⟩
  · intro scheme env sinFn cosFn st raw rng rng'
    cases scheme <;>
      simp [process_raw_obs, current_ee_pos_used, current_ee_xy_norm,
        opponent_ee_xy_norm, puck_pos_used, fresh_puck_xy_norm, puck_rot_yaw_norm,
        s7_puck_update, heval]
  · intro n env inp rng rng' a
    simp [process_raw_act, pre_limit_joint_vel, target_ee_pos, heval]
  · intro env sinFn cosFn st raw rng
    by_cases hne : st._new_episode <;>
      simp [process_raw_obs, current_ee_pos_used, current_ee_xy_norm,
        opponent_ee_xy_norm, puck_pos_used, fresh_puck_xy_norm, puck_rot_yaw_norm,
        s7_puck_update, heval, hne, deque_extend_full, List.length_replicate]

/-- Witness for C5 at the sample evaluation configuration: two different
random-draw batches yield the same observation. -/
theorem C5_evaluation_deterministic_witness :
    process_raw_obs .s7 sample_env sample_cfg_eval (fun _ => 0) (fun _ => 1)
        reset_obs_state sample_raw sample_rng
      = process_raw_obs .s7 sample_env sample_cfg_eval (fun _ => 0) (fun _ => 1)
        reset_obs_state sample_raw sample_rng2 :=
  (C5_evaluation_deterministic sample_cfg_eval rfl).1 .s7 sample_env (fun _ => 0)
    (fun _ => 1) reset_obs_state sample_raw sample_rng sample_rng2

/-! ## Claim C6: the weighted inverse-Jacobian solve -/

/-- C6: with positive singular values and a positive z tolerance, the
SVD-derived weights sum to exactly 1, the pre-limit joint velocity is the
weighted sum over the three Cartesian directions of the pseudo-inverse
columns times the displacement components divided by dt (the division by
the weight sum in np.average collapses), and the returned joint position is
exactly current_joint_pos + dt * (scaled) joint velocity. -/
theorem C6_ik_weighted_solve (n : ℕ) (z_tol dt : ℚ) (jac_pinv : Fin n → Fin 3 → ℚ)
    (sv delta : Fin 3 → ℚ)
    (h0 : 0 < sv 0) (h1 : 0 < sv 1) (h2 : 0 < sv 2) (hz : 0 < z_tol) :
    (ik_weights z_tol sv 0 + ik_weights z_tol sv 1 + ik_weights z_tol sv 2 = 1) ∧
    (∀ i, ik_joint_vel n z_tol dt jac_pinv sv delta i
        = (ik_weights z_tol sv 0 * (jac_pinv i 0 * delta 0)
            + ik_weights z_tol sv 1 * (jac_pinv i 1 * delta 1)
            + ik_weights z_tol sv 2 * (jac_pinv i 2 * delta 2)) / dt) ∧
    (∀ (env : EnvInfo) (cfg : AgentCfg) (inp : ActInputs n) (rng : NoiseDraws)
        (a : ℚ × ℚ) (i : Fin n),
        (process_raw_act n env cfg inp rng a).joint_pos i
          = inp.current_joint_pos i
            + env.sim_dt * (process_raw_act n env cfg inp rng a).joint_vel i) := by
  have e0 : ((0 : Fin 3) : ℕ) = 0 := rfl
  have e1 : ((1 : Fin 3) : ℕ) = 1 := rfl
  have e2 : ((2 : Fin 3) : ℕ) = 2 := rfl
  have hmean : (0 : ℚ) < (sv 0 + sv 1) / 2 := by linarith
  have hz2 : (0 : ℚ) < sv 2 * z_tol := mul_pos h2 hz
  have hS : (0 : ℚ) < 1 / ((sv 0 + sv 1) / 2) + 1 / ((sv 0 + sv 1) / 2)
      + 1 / (sv 2 * z_tol) := by positivity
  have w0eq : ik_weights z_tol sv 0
      = (1 / ((sv 0 + sv 1) / 2))
        / (1 / ((sv 0 + sv 1) / 2) + 1 / ((sv 0 + sv 1) / 2) + 1 / (sv 2 * z_tol)) := rfl
  have w1eq : ik_weights z_tol sv 1
      = (1 / ((sv 0 + sv 1) / 2))
        / (1 / ((sv 0 + sv 1) / 2) + 1 / ((sv 0 + sv 1) / 2) + 1 / (sv 2 * z_tol)) := rfl
  have w2eq : ik_weights z_tol sv 2
      = (1 / (sv 2 * z_tol))
        / (1 / ((sv 0 + sv 1) / 2) + 1 / ((sv 0 + sv 1) / 2) + 1 / (sv 2 * z_tol)) := rfl
  have hsum : ik_weights z_tol sv 0 + ik_weights z_tol sv 1 + ik_weights z_tol sv 2
      = 1 := by
    rw [w0eq, w1eq, w2eq, div_add_div_same, div_add_div_same, div_self (ne_of_gt hS)]
  refine ⟨hsum, ?_, ?_⟩
  · intro i
    simp only [ik_joint_vel]
    rw [hsum, div_one]
  · intro env cfg inp rng a i
    rfl

/-- Witness for C6 with unit singular values and unit z tolerance. -/
theorem C6_ik_weighted_solve_witness :
    ik_weights 1 (fun _ => 1) 0 + ik_weights 1 (fun _ => 1) 1
      + ik_weights 1 (fun _ => 1) 2 = 1 :=
  (C6_ik_weighted_solve 2 1 (1/50) (fun _ _ => 1) (fun _ => 1) (fun _ => 1)
    (by norm_num) (by norm_num) (by norm_num) (by norm_num)).1

/-! ## Claim C1: velocity-limit enforcement -/

/-- The full specification of the velocity-limit step, for limit vectors
straddling zero: the output respects the limits everywhere; when a joint is
out of limit, one uniform scalar (the folded minimum) multiplies the whole
vector and some offending joint lands exactly on its violated limit; and a
zero proposed velocity can never be out of limit. -/
theorem limit_joint_vel_spec (n : ℕ) (lo hi v : Fin n → ℚ)
    (hlim : ∀ i, lo i < 0 ∧ 0 < hi i) :
    (∀ i, lo i ≤ limit_joint_vel n lo hi v i ∧ limit_joint_vel n lo hi v i ≤ hi i) ∧
    ((∃ i, v i < lo i ∨ hi i < v i) →
      (∀ i, limit_joint_vel n lo hi v i = v i * downscaling_factor n lo hi v) ∧
      ∃ j, (v j < lo j ∨ hi j < v j) ∧
        (limit_joint_vel n lo hi v j = lo j ∨ limit_joint_vel n lo hi v j = hi j)) ∧
    (∀ i, v i = 0 → ¬(v i < lo i ∨ hi i < v i)) := by
  classical
  have hdf : downscaling_factor n lo hi v
      = ((List.finRange n).filter fun i => decide (v i < lo i ∨ hi i < v i)).foldl
          (fun acc i =>
            min acc (1 - ((v i - (if hi i < v i then hi i else lo i)) / v i))) 1 := rfl
  have hvne : ∀ i, (v i < lo i ∨ hi i < v i) → v i ≠ 0 := by
    intro i h
    rcases h with h | h
    · exact ne_of_lt (lt_trans h (hlim i).1)
    · exact ne_of_gt (lt_trans (hlim i).2 h)
  have hfval : ∀ i, (v i < lo i ∨ hi i < v i) →
      (1 - ((v i - (if hi i < v i then hi i else lo i)) / v i))
        = (if hi i < v i then hi i else lo i) / v i := by
    intro i h
    rw [one_sub_div (hvne i h), sub_sub_cancel]
  have hfpos : ∀ i, (v i < lo i ∨ hi i < v i) →
      0 < (if hi i < v i then hi i else lo i) / v i := by
    intro i h
    rcases h with h | h
    · have hv0 : v i < 0 := lt_trans h (hlim i).1
      rw [if_neg (not_lt.mpr (le_of_lt (lt_trans hv0 (hlim i).2)))]
      exact div_pos_of_neg_of_neg (hlim i).1 hv0
    · rw [if_pos h]
      exact div_pos (hlim i).2 (lt_trans (hlim i).2 h)
  have hflt1 : ∀ i, (v i < lo i ∨ hi i < v i) →
      (if hi i < v i then hi i else lo i) / v i < 1 := by
    intro i h
    rcases h with h | h
    · have hv0 : v i < 0 := lt_trans h (hlim i).1
      rw [if_neg (not_lt.mpr (le_of_lt (lt_trans hv0 (hlim i).2)))]
      exact (div_lt_one_of_neg hv0).mpr h
    · have hv0 : (0 : ℚ) < v i := lt_trans (hlim i).2 h
      rw [if_pos h]
      exact (div_lt_one hv0).mpr h
  have hmemL : ∀ i, (v i < lo i ∨ hi i < v i) →
      i ∈ ((List.finRange n).filter fun i => decide (v i < lo i ∨ hi i < v i)) := by
    intro i h
    exact List.mem_filter.mpr ⟨List.mem_finRange i, by simpa using h⟩
  have hLmem : ∀ i, i ∈ ((List.finRange n).filter fun i => decide (v i < lo i ∨ hi i < v i))
      → (v i < lo i ∨ hi i < v i) := by
    intro i h
    have := (List.mem_filter.mp h).2
    simpa using this
  have hcle1 : downscaling_factor n lo hi v ≤ 1 := by
    rw [hdf]
    exact foldl_min_le_init _ _ 1
  have hclef : ∀ i, (v i < lo i ∨ hi i < v i) →
      downscaling_factor n lo hi v ≤ (if hi i < v i then hi i else lo i) / v i := by
    intro i h
    rw [hdf, ← hfval i h]
    exact foldl_min_le_mem _ _ 1 (hmemL i h)
  have hcpos : 0 < downscaling_factor n lo hi v := by
    rw [hdf]
    rcases foldl_min_eq_init_or_mem
        (fun i => 1 - ((v i - (if hi i < v i then hi i else lo i)) / v i))
        ((List.finRange n).filter fun i => decide (v i < lo i ∨ hi i < v i)) 1 with
      h | ⟨i, hiL, h⟩
    · rw [h]
      norm_num
    · rw [h, hfval i (hLmem i hiL)]
      exact hfpos i (hLmem i hiL)
  refine ⟨?_, ?_, ?_⟩
  · intro i
    by_cases hex : ∃ j, v j < lo j ∨ hi j < v j
    · have hval : limit_joint_vel n lo hi v i
          = v i * downscaling_factor n lo hi v := by
        unfold limit_joint_vel
        rw [if_pos hex]
      rw [hval]
      by_cases hPi : v i < lo i ∨ hi i < v i
      · rcases hPi with hb | ha
        · have hv0 : v i < 0 := lt_trans hb (hlim i).1
          have hif : (if hi i < v i then hi i else lo i) = lo i :=
            if_neg (not_lt.mpr (le_of_lt (lt_trans hv0 (hlim i).2)))
          have hcle2 : downscaling_factor n lo hi v ≤ lo i / v i := by
            have := hclef i (Or.inl hb)
            rwa [hif] at this
          have hkey : v i * (lo i / v i) = lo i := by
            rw [mul_comm, div_mul_cancel₀ _ (ne_of_lt hv0)]
          have hmul := mul_le_mul_of_nonpos_left hcle2 (le_of_lt hv0)
          rw [hkey] at hmul
          constructor
          · exact hmul
          · have : v i * downscaling_factor n lo hi v < 0 :=
              mul_neg_of_neg_of_pos hv0 hcpos
            linarith [(hlim i).2]
        · have hv0 : (0 : ℚ) < v i := lt_trans (hlim i).2 ha
          have hif : (if hi i < v i then hi i else lo i) = hi i := if_pos ha
          have hcle2 : downscaling_factor n lo hi v ≤ hi i / v i := by
            have := hclef i (Or.inr ha)
            rwa [hif] at this
          have hkey : v i * (hi i / v i) = hi i := by
            rw [mul_comm, div_mul_cancel₀ _ (ne_of_gt hv0)]
          have hmul := mul_le_mul_of_nonneg_left hcle2 (le_of_lt hv0)
          rw [hkey] at hmul
          constructor
          · have : 0 < v i * downscaling_factor n lo hi v := mul_pos hv0 hcpos
            linarith [(hlim i).1]
          · exact hmul
      · push_neg at hPi
        obtain ⟨hl, hh⟩ := hPi
        rcases le_or_lt 0 (v i) with hv0 | hv0
        · have h1 : v i * downscaling_factor n lo hi v ≤ v i :=
            mul_le_of_le_one_right hv0 hcle1
          have h2 : 0 ≤ v i * downscaling_factor n lo hi v :=
            mul_nonneg hv0 (le_of_lt hcpos)
          exact ⟨by linarith [(hlim i).1], by linarith⟩
        · have h1 := mul_le_mul_of_nonpos_left hcle1 (le_of_lt hv0)
          rw [mul_one] at h1
          have h2 : v i * downscaling_factor n lo hi v ≤ 0 :=
            mul_nonpos_of_nonpos_of_nonneg (le_of_lt hv0) (le_of_lt hcpos)
          exact ⟨by linarith, by linarith [(hlim i).2]⟩
    · have hval : limit_joint_vel n lo hi v i = v i := by
        unfold limit_joint_vel
        rw [if_neg hex]
      rw [hval]
      push_neg at hex
      exact hex i
  · intro hex
    have hval : ∀ i, limit_joint_vel n lo hi v i
        = v i * downscaling_factor n lo hi v := by
      intro i
      unfold limit_joint_vel
      rw [if_pos hex]
    refine ⟨hval, ?_⟩
    obtain ⟨i0, hP0⟩ := hex
    have hcases := foldl_min_eq_init_or_mem
      (fun i => 1 - ((v i - (if hi i < v i then hi i else lo i)) / v i))
      ((List.finRange n).filter fun i => decide (v i < lo i ∨ hi i < v i)) 1
    rw [← hdf] at hcases
    rcases hcases with hcase | ⟨j, hjL, hcase⟩
    · exfalso
      have h1 := hclef i0 hP0
      have h2 := hflt1 i0 hP0
      rw [hcase] at h1
      linarith
    · have hPj := hLmem j hjL
      have hgj : downscaling_factor n lo hi v
          = (if hi j < v j then hi j else lo j) / v j := by
        rw [hcase]
        exact hfval j hPj
      refine ⟨j, hPj, ?_⟩
      have hvj : v j * downscaling_factor n lo hi v
          = (if hi j < v j then hi j else lo j) := by
        rw [hgj, mul_comm, div_mul_cancel₀ _ (hvne j hPj)]
      rcases hPj with hb | ha
      · left
        rw [hval j, hvj,
          if_neg (not_lt.mpr (le_of_lt (lt_trans (lt_trans hb (hlim j).1) (hlim j).2)))]
      · right
        rw [hval j, hvj, if_pos ha]
  · intro i h0 h
    rcases h with h | h
    · rw [h0] at h
      linarith [(hlim i).1]
    · rw [h0] at h
      linarith [(hlim i).2]

/-- C1: for every process_raw_act call whose scaled joint velocity limits
straddle zero, the returned joint velocity respects every scaled limit;
when the pre-limit velocity violates some limit, the whole vector is
multiplied by the single folded-minimum scalar and some offending joint
lands exactly on its limit; and a joint with zero proposed velocity is
never out of limit (so the factor never divides by zero). -/
theorem C1_velocity_limits (n : ℕ) (env : EnvInfo) (cfg : AgentCfg)
    (inp : ActInputs n) (rng : NoiseDraws) (action : ℚ × ℚ)
    (hlim : ∀ i, robot_joint_vel_limit_scaled_low n cfg inp i < 0
        ∧ 0 < robot_joint_vel_limit_scaled_high n cfg inp i) :
    (∀ i, robot_joint_vel_limit_scaled_low n cfg inp i
        ≤ (process_raw_act n env cfg inp rng action).joint_vel i
      ∧ (process_raw_act n env cfg inp rng action).joint_vel i
        ≤ robot_joint_vel_limit_scaled_high n cfg inp i) ∧
    ((∃ i, pre_limit_joint_vel n env cfg inp rng action i
          < robot_joint_vel_limit_scaled_low n cfg inp i
        ∨ robot_joint_vel_limit_scaled_high n cfg inp i
          < pre_limit_joint_vel n env cfg inp rng action i) →
      (∀ i, (process_raw_act n env cfg inp rng action).joint_vel i
          = pre_limit_joint_vel n env cfg inp rng action i
            * downscaling_factor n (robot_joint_vel_limit_scaled_low n cfg inp)
                (robot_joint_vel_limit_scaled_high n cfg inp)
                (pre_limit_joint_vel n env cfg inp rng action)) ∧
      ∃ j, (pre_limit_joint_vel n env cfg inp rng action j
            < robot_joint_vel_limit_scaled_low n cfg inp j
          ∨ robot_joint_vel_limit_scaled_high n cfg inp j
            < pre_limit_joint_vel n env cfg inp rng action j) ∧
        ((process_raw_act n env cfg inp rng action).joint_vel j
            = robot_joint_vel_limit_scaled_low n cfg inp j
         ∨ (process_raw_act n env cfg inp rng action).joint_vel j
            = robot_joint_vel_limit_scaled_high n cfg inp j)) ∧
    (∀ i, pre_limit_joint_vel n env cfg inp rng action i = 0 →
      ¬(pre_limit_joint_vel n env cfg inp rng action i
          < robot_joint_vel_limit_scaled_low n cfg inp i
        ∨ robot_joint_vel_limit_scaled_high n cfg inp i
          < pre_limit_joint_vel n env cfg inp rng action i)) :=
  limit_joint_vel_spec n (robot_joint_vel_limit_scaled_low n cfg inp)
    (robot_joint_vel_limit_scaled_high n cfg inp)
    (pre_limit_joint_vel n env cfg inp rng action) hlim

/-- Witness for C1 at the sample two-joint decoder inputs. -/
theorem C1_velocity_limits_witness :
    robot_joint_vel_limit_scaled_low 2 sample_cfg_eval sample_act_inputs 0
        ≤ (process_raw_act 2 sample_env sample_cfg_eval sample_act_inputs sample_rng
            (1, 1)).joint_vel 0
      ∧ (process_raw_act 2 sample_env sample_cfg_eval sample_act_inputs sample_rng
            (1, 1)).joint_vel 0
        ≤ robot_joint_vel_limit_scaled_high 2 sample_cfg_eval sample_act_inputs 0 :=
  (C1_velocity_limits 2 sample_env sample_cfg_eval sample_act_inputs sample_rng (1, 1)
    (by
      intro i
      constructor <;>
        norm_num [robot_joint_vel_limit_scaled_low, robot_joint_vel_limit_scaled_high,
          sample_cfg_eval, sample_act_inputs])).1 0

/-! ## Claim C3: observation length matches the declared shape -/

/-- The length of the scheme-5/6 per-stack update: the replicate-extend of
a fresh episode or the plain append of a warm stack both leave exactly m
elements. -/
theorem length_stack_step (m : ℕ) (b : Bool) (xs : List (ℚ × ℚ)) (v : ℚ × ℚ)
    (h : b = true ∨ xs.length = m) :
    (if b then deque_extend m xs (List.replicate m v)
     else deque_append m xs v).length = m := by
  cases b with
  | false =>
    rcases h with h | h
    · cases h
    · simp only [Bool.false_eq_true, if_false, length_deque_append, h]
      omega
  | true =>
    simp only [if_true]
    rw [deque_extend_full m xs _ (by simp)]
    simp

/-- C3: for every valid scheme, called from any wellformed encoder state on
a 7-joint raw observation, process_raw_obs returns a vector of exactly the
statically declared observation-space length and leaves a warm (hence again
wellformed) state behind, and the reset state is wellformed — so the shape
assertion at the end of process_raw_obs never fires, on the first tick of
an episode or on any later tick. -/
theorem C3_observation_length (scheme : Scheme) (env : EnvInfo) (cfg : AgentCfg)
    (sinFn cosFn : ℚ → ℚ) (st : ObsState) (raw : RawObs) (rng : NoiseDraws)
    (hwf : obs_state_wf scheme st)
    (hjoint : raw.joint_pos.length = 7)
    (hlow : env.robot_joint_pos_limit_low.length = 7)
    (hhigh : env.robot_joint_pos_limit_high.length = 7) :
    (process_raw_obs scheme env cfg sinFn cosFn st raw rng).obs.length
        = n_obs_declared scheme ∧
    obs_state_warm scheme (process_raw_obs scheme env cfg sinFn cosFn st raw rng).st ∧
    obs_state_wf scheme (process_raw_obs scheme env cfg sinFn cosFn st raw rng).st ∧
    obs_state_wf scheme reset_obs_state := by
  have hjn : (current_joint_pos_normalized env raw).length = 7 := by
    simp [current_joint_pos_normalized, length_norm_clip_list, hjoint, hlow, hhigh]
  cases scheme
  case s2 =>
    have hwarm : obs_state_warm .s2
        (process_raw_obs .s2 env cfg sinFn cosFn st raw rng).st := by
      refine ⟨?_, ?_, ?_, fun h => Scheme.noConfusion h⟩ <;>
        simp [process_raw_obs, length_push_fill]
    refine ⟨?_, hwarm, ?_, by decide⟩
    · simp [process_raw_obs, length_flatten_pairs, length_push_fill, n_obs_declared,
        n_stacked_obs_participant_ee_pos, n_stacked_obs_opponent_ee_pos,
        n_stacked_obs_puck_pos]
    · exact ⟨le_of_eq hwarm.1, le_of_eq hwarm.2.1, le_of_eq hwarm.2.2.1⟩
  case s3 =>
    have hwarm : obs_state_warm .s3
        (process_raw_obs .s3 env cfg sinFn cosFn st raw rng).st := by
      refine ⟨?_, ?_, ?_, fun h => Scheme.noConfusion h⟩ <;>
        simp [process_raw_obs, length_push_fill]
    refine ⟨?_, hwarm, ?_, by decide⟩
    · simp [process_raw_obs, length_flatten_pairs, length_push_fill, n_obs_declared,
        n_stacked_obs_participant_ee_pos, n_stacked_obs_opponent_ee_pos,
        n_stacked_obs_puck_pos]
    · exact ⟨le_of_eq hwarm.1, le_of_eq hwarm.2.1, le_of_eq hwarm.2.2.1⟩
  case s4 =>
    have hwarm : obs_state_warm .s4
        (process_raw_obs .s4 env cfg sinFn cosFn st raw rng).st := by
      refine ⟨?_, ?_, ?_, fun h => Scheme.noConfusion h⟩ <;>
        simp [process_raw_obs, length_push_fill]
    refine ⟨?_, hwarm, ?_, by decide⟩
    · simp [process_raw_obs, length_flatten_pairs, length_push_fill, n_obs_declared,
        n_stacked_obs_participant_ee_pos, n_stacked_obs_opponent_ee_pos,
        n_stacked_obs_puck_pos]
    · exact ⟨le_of_eq hwarm.1, le_of_eq hwarm.2.1, le_of_eq hwarm.2.2.1⟩
  case s5 =>
    have hchoice : st._new_episode = true ∨ obs_state_warm .s5 st := hwf
    have hpuck := length_stack_step (n_stacked_obs_puck_pos .s5) st._new_episode
      st.stacked_obs_puck_pos (fresh_puck_xy_norm env cfg raw rng)
      (hchoice.imp id fun hw => hw.2.2.1)
    have hee := length_stack_step (n_stacked_obs_participant_ee_pos .s5)
      st._new_episode st.stacked_obs_participant_ee_pos
      (current_ee_xy_norm env cfg raw rng) (hchoice.imp id fun hw => hw.1)
    have hopp := length_stack_step (n_stacked_obs_opponent_ee_pos .s5) st._new_episode
      st.stacked_obs_opponent_ee_pos (opponent_ee_xy_norm env cfg raw rng)
      (hchoice.imp id fun hw => hw.2.1)
    have hwarm : obs_state_warm .s5
        (process_raw_obs .s5 env cfg sinFn cosFn st raw rng).st := by
      refine ⟨?_, ?_, ?_, fun h => Scheme.noConfusion h⟩ <;>
        simp only [process_raw_obs] <;>
          first
            | exact hee
            | exact hopp
            | exact hpuck
    refine ⟨?_, hwarm, Or.inr hwarm, by decide⟩
    simp only [process_raw_obs, List.length_cons, List.length_append,
      length_flatten_pairs, hpuck, hee, hopp]
    decide
  case s6 =>
    have hchoice : st._new_episode = true ∨ obs_state_warm .s6 st := hwf
    have hpuck := length_stack_step (n_stacked_obs_puck_pos .s6) st._new_episode
      st.stacked_obs_puck_pos (fresh_puck_xy_norm env cfg raw rng)
      (hchoice.imp id fun hw => hw.2.2.1)
    have hee := length_stack_step (n_stacked_obs_participant_ee_pos .s6)
      st._new_episode st.stacked_obs_participant_ee_pos
      (current_ee_xy_norm env cfg raw rng) (hchoice.imp id fun hw => hw.1)
    have hopp := length_stack_step (n_stacked_obs_opponent_ee_pos .s6) st._new_episode
      st.stacked_obs_opponent_ee_pos (opponent_ee_xy_norm env cfg raw rng)
      (hchoice.imp id fun hw => hw.2.1)
    have hwarm : obs_state_warm .s6
        (process_raw_obs .s6 env cfg sinFn cosFn st raw rng).st := by
      refine ⟨?_, ?_, ?_, fun h => Scheme.noConfusion h⟩ <;>
        simp only [process_raw_obs] <;>
          first
            | exact hee
            | exact hopp
            | exact hpuck
    refine ⟨?_, hwarm, Or.inr hwarm, by decide⟩
    simp only [process_raw_obs, List.length_cons, List.length_append,
      length_flatten_pairs, hpuck, hee, hopp, hjn]
    decide
  case s7 =>
    by_cases hne7 : st._new_episode
    · have hwarm : obs_state_warm .s7
          (process_raw_obs .s7 env cfg sinFn cosFn st raw rng).st := by
        refine ⟨?_, ?_, ?_, fun _ => ?_⟩ <;>
          simp [process_raw_obs, hne7, deque_extend_full]
      refine ⟨?_, hwarm, Or.inr hwarm, by decide⟩
      simp only [process_raw_obs, hne7, if_true, List.length_cons, List.length_append,
        length_flatten_pairs, hjn]
      rw [deque_extend_full _ _ _ (by simp), deque_extend_full _ _ _ (by simp),
        deque_extend_full _ _ _ (by simp), deque_extend_full _ _ _ (by simp)]
      simp only [List.length_replicate]
      decide
    · have hwarm0 : obs_state_warm .s7 st := by
        rcases hwf with h | h
        · exact absurd h hne7
        · exact h
      obtain ⟨he, ho, hp, hr⟩ := hwarm0
      have hfalse : st._new_episode = false := by
        simpa using hne7
      have hupd := s7_puck_update_length cfg st rng (fresh_puck_xy_norm env cfg raw rng)
        (puck_rot_yaw_norm cfg sinFn cosFn raw rng) hp (hr rfl)
      have hee : (deque_append (n_stacked_obs_participant_ee_pos .s7)
          st.stacked_obs_participant_ee_pos (current_ee_xy_norm env cfg raw rng)).length
          = n_stacked_obs_participant_ee_pos .s7 := by
        rw [length_deque_append, he]
        omega
      have hoo : (deque_append (n_stacked_obs_opponent_ee_pos .s7)
          st.stacked_obs_opponent_ee_pos (opponent_ee_xy_norm env cfg raw rng)).length
          = n_stacked_obs_opponent_ee_pos .s7 := by
        rw [length_deque_append, ho]
        omega
      have hwarm : obs_state_warm .s7
          (process_raw_obs .s7 env cfg sinFn cosFn st raw rng).st := by
        refine ⟨?_, ?_, ?_, fun _ => ?_⟩ <;>
          simp only [process_raw_obs, hfalse, Bool.false_eq_true, if_false] <;>
            first
              | exact hee
              | exact hoo
              | exact hupd.1
              | exact hupd.2
      refine ⟨?_, hwarm, Or.inr hwarm, by decide⟩
      simp only [process_raw_obs, hfalse, Bool.false_eq_true, if_false,
        List.length_cons, List.length_append, length_flatten_pairs, hupd.1, hupd.2,
        hee, hoo, hjn]
      decide

/-- Witness for C3: the first scheme-7 tick after a reset produces the 40
observation components the observation_space property declares. -/
theorem C3_observation_length_witness :
    (process_raw_obs .s7 sample_env sample_cfg_eval (fun _ => 0) (fun _ => 1)
        reset_obs_state sample_raw sample_rng).obs.length = n_obs_declared .s7 :=
  (C3_observation_length .s7 sample_env sample_cfg_eval (fun _ => 0) (fun _ => 1)
    reset_obs_state sample_raw sample_rng (by decide) rfl rfl rfl).1

/-! ## Claim C2: every observation component lies in the unit interval -/

/-- C2: for every configured scheme from 2 to 7 and every raw observation
(the physical quantities may lie anywhere, at or beyond the declared
ranges), every element returned by process_raw_obs lies in [-1, 1] when
called from a range-bounded state — including schemes 5, 6 and 7, whose
concatenated output is not clipped as a whole but only component-wise
before stacking — and the resulting state is again range-bounded (the reset
state is, vacuously). -/
theorem C2_obs_in_unit_range (scheme : Scheme) (env : EnvInfo) (cfg : AgentCfg)
    (sinFn cosFn : ℚ → ℚ) (st : ObsState) (raw : RawObs) (rng : NoiseDraws)
    (hsin : ∀ y, bounded1 (sinFn y)) (hcos : ∀ y, bounded1 (cosFn y))
    (hst : obs_state_bounded st) :
    (∀ v ∈ (process_raw_obs scheme env cfg sinFn cosFn st raw rng).obs, bounded1 v) ∧
    obs_state_bounded (process_raw_obs scheme env cfg sinFn cosFn st raw rng).st := by
  obtain ⟨hbe, hbo, hbp, hbr⟩ := hst
  have hEe : pair_bounded (current_ee_xy_norm env cfg raw rng) :=
    norm_clip_pair_bounded _ _
  have hOpp : pair_bounded (opponent_ee_xy_norm env cfg raw rng) :=
    norm_clip_pair_bounded _ _
  have hPuck : pair_bounded (fresh_puck_xy_norm env cfg raw rng) :=
    norm_clip_pair_bounded _ _
  have hRot : pair_bounded (puck_rot_yaw_norm cfg sinFn cosFn raw rng) :=
    ⟨hsin _, hcos _⟩
  have hJn : ∀ v ∈ current_joint_pos_normalized env raw, bounded1 v :=
    norm_clip_list_bounded _ _ _
  have hmap : ∀ l : List ℚ, ∀ v ∈ l.map fun x => np_clip x (-1) 1, bounded1 v := by
    intro l v hv
    obtain ⟨x, _, rfl⟩ := List.mem_map.mp hv
    exact np_clip_bounded1 x
  cases scheme
  case s2 =>
    refine ⟨?_, ?_, ?_, ?_, ?_⟩
    · intro v hv
      simp only [process_raw_obs] at hv
      exact hmap _ v hv
    · exact stack_bounded_push_fill hbe hEe
    · exact stack_bounded_push_fill hbo hOpp
    · exact stack_bounded_push_fill hbp hPuck
    · exact hbr
  case s3 =>
    refine ⟨?_, ?_, ?_, ?_, ?_⟩
    · intro v hv
      simp only [process_raw_obs] at hv
      exact hmap _ v hv
    · exact stack_bounded_push_fill hbe hEe
    · exact stack_bounded_push_fill hbo hOpp
    · exact stack_bounded_push_fill hbp hPuck
    · exact hbr
  case s4 =>
    refine ⟨?_, ?_, ?_, ?_, ?_⟩
    · intro v hv
      simp only [process_raw_obs] at hv
      exact hmap _ v hv
    · exact stack_bounded_push_fill hbe hEe
    · exact stack_bounded_push_fill hbo hOpp
    · exact stack_bounded_push_fill hbp hPuck
    · exact hbr
  case s5 =>
    have hsEe : stack_bounded (if st._new_episode then
        deque_extend (n_stacked_obs_participant_ee_pos .s5)
          st.stacked_obs_participant_ee_pos
          (List.replicate (n_stacked_obs_participant_ee_pos .s5)
            (current_ee_xy_norm env cfg raw rng))
      else deque_append (n_stacked_obs_participant_ee_pos .s5)
        st.stacked_obs_participant_ee_pos (current_ee_xy_norm env cfg raw rng)) :=
      stack_bounded_stack_step _ hbe hEe
    have hsOpp : stack_bounded (if st._new_episode then
        deque_extend (n_stacked_obs_opponent_ee_pos .s5)
          st.stacked_obs_opponent_ee_pos
          (List.replicate (n_stacked_obs_opponent_ee_pos .s5)
            (opponent_ee_xy_norm env cfg raw rng))
      else deque_append (n_stacked_obs_opponent_ee_pos .s5)
        st.stacked_obs_opponent_ee_pos (opponent_ee_xy_norm env cfg raw rng)) :=
      stack_bounded_stack_step _ hbo hOpp
    have hsPuck : stack_bounded (if st._new_episode then
        deque_extend (n_stacked_obs_puck_pos .s5) st.stacked_obs_puck_pos
          (List.replicate (n_stacked_obs_puck_pos .s5)
            (fresh_puck_xy_norm env cfg raw rng))
      else deque_append (n_stacked_obs_puck_pos .s5) st.stacked_obs_puck_pos
        (fresh_puck_xy_norm env cfg raw rng)) :=
      stack_bounded_stack_step _ hbp hPuck
    refine ⟨?_, hsEe, hsOpp, hsPuck, hbr⟩
    intro v hv
    simp only [process_raw_obs, List.mem_cons, List.mem_append, or_assoc] at hv
    rcases hv with rfl | hv | hv | hv
    · exact np_clip_bounded1 _
    · exact flatten_pairs_bounded hsPuck v hv
    · exact flatten_pairs_bounded hsEe v hv
    · exact flatten_pairs_bounded hsOpp v hv
  case s6 =>
    have hsEe : stack_bounded (if st._new_episode then
        deque_extend (n_stacked_obs_participant_ee_pos .s6)
          st.stacked_obs_participant_ee_pos
          (List.replicate (n_stacked_obs_participant_ee_pos .s6)
            (current_ee_xy_norm env cfg raw rng))
      else deque_append (n_stacked_obs_participant_ee_pos .s6)
        st.stacked_obs_participant_ee_pos (current_ee_xy_norm env cfg raw rng)) :=
      stack_bounded_stack_step _ hbe hEe
    have hsOpp : stack_bounded (if st._new_episode then
        deque_extend (n_stacked_obs_opponent_ee_pos .s6)
          st.stacked_obs_opponent_ee_pos
          (List.replicate (n_stacked_obs_opponent_ee_pos .s6)
            (opponent_ee_xy_norm env cfg raw rng))
      else deque_append (n_stacked_obs_opponent_ee_pos .s6)
        st.stacked_obs_opponent_ee_pos (opponent_ee_xy_norm env cfg raw rng)) :=
      stack_bounded_stack_step _ hbo hOpp
    have hsPuck : stack_bounded (if st._new_episode then
        deque_extend (n_stacked_obs_puck_pos .s6) st.stacked_obs_puck_pos
          (List.replicate (n_stacked_obs_puck_pos .s6)
            (fresh_puck_xy_norm env cfg raw rng))
      else deque_append (n_stacked_obs_puck_pos .s6) st.stacked_obs_puck_pos
        (fresh_puck_xy_norm env cfg raw rng)) :=
      stack_bounded_stack_step _ hbp hPuck
    refine ⟨?_, hsEe, hsOpp, hsPuck, hbr⟩
    intro v hv
    simp only [process_raw_obs, List.mem_cons, List.mem_append, or_assoc] at hv
    rcases hv with rfl | hv | hv | hv | hv
    · exact np_clip_bounded1 _
    · exact hJn v hv
    · exact flatten_pairs_bounded hsPuck v hv
    · exact flatten_pairs_bounded hsEe v hv
    · exact flatten_pairs_bounded hsOpp v hv
  case s7 =>
    by_cases hne : st._new_episode
    · have hsEe : stack_bounded (deque_extend (n_stacked_obs_participant_ee_pos .s7)
          st.stacked_obs_participant_ee_pos
          (List.replicate (n_stacked_obs_participant_ee_pos .s7)
            (current_ee_xy_norm env cfg raw rng))) :=
        stack_bounded_deque_extend hbe (stack_bounded_replicate hEe)
      have hsOpp : stack_bounded (deque_extend (n_stacked_obs_opponent_ee_pos .s7)
          st.stacked_obs_opponent_ee_pos
          (List.replicate (n_stacked_obs_opponent_ee_pos .s7)
            (opponent_ee_xy_norm env cfg raw rng))) :=
        stack_bounded_deque_extend hbo (stack_bounded_replicate hOpp)
      have hsPuck : stack_bounded (deque_extend (n_stacked_obs_puck_pos .s7)
          st.stacked_obs_puck_pos (List.replicate (n_stacked_obs_puck_pos .s7)
            (fresh_puck_xy_norm env cfg raw rng))) :=
        stack_bounded_deque_extend hbp (stack_bounded_replicate hPuck)
      have hsRot : stack_bounded (deque_extend (n_stacked_obs_puck_rot .s7)
          st.stacked_obs_puck_rot (List.replicate (n_stacked_obs_puck_rot .s7)
            (puck_rot_yaw_norm cfg sinFn cosFn raw rng))) :=
        stack_bounded_deque_extend hbr (stack_bounded_replicate hRot)
      constructor
      · intro v hv
        simp only [process_raw_obs, hne, if_true, List.mem_cons, List.mem_append, or_assoc] at hv
        rcases hv with rfl | hv | hv | hv | hv | hv
        · exact np_clip_bounded1 _
        · exact hJn v hv
        · exact flatten_pairs_bounded hsPuck v hv
        · exact flatten_pairs_bounded hsRot v hv
        · exact flatten_pairs_bounded hsEe v hv
        · exact flatten_pairs_bounded hsOpp v hv
      · simp only [process_raw_obs, hne, if_true]
        exact ⟨hsEe, hsOpp, hsPuck, hsRot⟩
    · have hfalse : st._new_episode = false := by
        simpa using hne
      have hupd := s7_puck_update_bounded cfg st rng
        (fresh_puck_xy_norm env cfg raw rng)
        (puck_rot_yaw_norm cfg sinFn cosFn raw rng) hbp hbr hPuck hRot
      have hsEe : stack_bounded (deque_append (n_stacked_obs_participant_ee_pos .s7)
          st.stacked_obs_participant_ee_pos (current_ee_xy_norm env cfg raw rng)) :=
        stack_bounded_deque_append hbe hEe
      have hsOpp : stack_bounded (deque_append (n_stacked_obs_opponent_ee_pos .s7)
          st.stacked_obs_opponent_ee_pos (opponent_ee_xy_norm env cfg raw rng)) :=
        stack_bounded_deque_append hbo hOpp
      constructor
      · intro v hv
        simp only [process_raw_obs, hfalse, Bool.false_eq_true, if_false,
          List.mem_cons, List.mem_append, or_assoc] at hv
        rcases hv with rfl | hv | hv | hv | hv | hv
        · exact np_clip_bounded1 _
        · exact hJn v hv
        · exact flatten_pairs_bounded hupd.1 v hv
        · exact flatten_pairs_bounded hupd.2 v hv
        · exact flatten_pairs_bounded hsEe v hv
        · exact flatten_pairs_bounded hsOpp v hv
      · simp only [process_raw_obs, hfalse, Bool.false_eq_true, if_false]
        exact ⟨hsEe, hsOpp, hupd.1, hupd.2⟩

/-- Witness for C2: the state a scheme-7 first tick leaves behind at the
sample inputs is range-bounded. -/
theorem C2_obs_in_unit_range_witness :
    obs_state_bounded (process_raw_obs .s7 sample_env sample_cfg_eval (fun _ => 0)
      (fun _ => 1) reset_obs_state sample_raw sample_rng).st :=
  (C2_obs_in_unit_range .s7 sample_env sample_cfg_eval (fun _ => 0) (fun _ => 1)
    reset_obs_state sample_raw sample_rng
    (fun _ => ⟨by norm_num, by norm_num⟩) (fun _ => ⟨by norm_num, by norm_num⟩)
    (by decide)).2

end AirHockey
